import Mathlib

/-
Verification development for the extraction pipeline of `backend/finder.py`
(class `AppelsProjetFinder`) of the ScrapingAP repository.

Modelling conventions:
- Python strings are `List Char` (when scanned character by character) or
  `String`; Python dicts are insertion-ordered association lists.
- Raised exceptions are modelled with `Option`/`Except`: a caught exception
  corresponds to the `none`/`.error` branch of the surrounding code.
- External collaborators (the LLM SDKs, the HTTP stack, pandas, BeautifulSoup)
  are parameters of the model: an environment record supplies their outcomes,
  and the code under verification is translated faithfully around them.
-/

namespace ScrapingAP

/-- Whitespace characters recognised by Python `str.strip` and by the regex
class `\s` (ASCII repertoire; the inputs handled by the tool stay in it). -/
def isSpaceChar (c : Char) : Bool :=
  c = ' ' || c = '\t' || c = '\n' || c = '\r' || c = '\x0b' || c = '\x0c'

/-- Python `str.strip()`: remove whitespace from both ends. -/
def pyStrip (s : List Char) : List Char :=
  ((s.dropWhile isSpaceChar).reverse.dropWhile isSpaceChar).reverse

/-- Accented letters (both cases) that occur in the French text patterns of
`finder.py`; used for case folding and for the word-character class `\w`. -/
def frenchUpper : List Char :=
  ['À', 'Â', 'Ä', 'Ç', 'É', 'È', 'Ê', 'Ë', 'Î', 'Ï', 'Ô', 'Ö', 'Ù', 'Û', 'Ü']

def frenchLower : List Char :=
  ['à', 'â', 'ä', 'ç', 'é', 'è', 'ê', 'ë', 'î', 'ï', 'ô', 'ö', 'ù', 'û', 'ü']

/-- Python `str.lower()` restricted to the character repertoire the tool
manipulates (ASCII plus the accented French letters above). -/
def lowerChar (c : Char) : Char :=
  if 'A' ≤ c && c ≤ 'Z' then Char.ofNat (c.toNat + 32)
  else
    match (frenchUpper.zip frenchLower).find? (fun p => p.1 = c) with
    | some p => p.2
    | none => c

def pyLower (s : List Char) : List Char := s.map lowerChar

/-- Regex class `\w` (word character) over the modelled repertoire:
alphanumerics, underscore and the accented French letters. -/
def isWordChar (c : Char) : Bool :=
  c.isAlphanum || c = '_' || frenchUpper.contains c || frenchLower.contains c

/-- Left and right braces, written via code points so that no brace appears
inside a string or character literal in this file. -/
def lbrace : Char := Char.ofNat 123

def rbrace : Char := Char.ofNat 125

/-- Values produced by Python `json.loads`. Numbers keep their lexeme (the
pipeline never computes with them, it only stores and prints them). -/
inductive Json where
  | null : Json
  | bool (b : Bool) : Json
  | num (lex : String) : Json
  | str (s : String) : Json
  | arr (elems : List Json) : Json
  | obj (fields : List (String × Json)) : Json
deriving Repr

/-- Python dict assignment `d[k] = v`: overwrite in place if the key exists
(keeping its position), otherwise append at the end. -/
def dictSet (kvs : List (String × Json)) (k : String) (v : Json) :
    List (String × Json) :=
  if kvs.any (fun p => p.1 = k) then
    kvs.map (fun p => if p.1 = k then (k, v) else p)
  else kvs ++ [(k, v)]

/-- Python dict lookup `d.get(k)`. -/
def dictGet (kvs : List (String × Json)) (k : String) : Option Json :=
  (kvs.find? (fun p => p.1 = k)).map (fun p => p.2)

/-- Fold a parsed list of object members into a dict, later duplicates
overwriting earlier ones, as Python's object construction does. -/
def dedupFields (pairs : List (String × Json)) : List (String × Json) :=
  pairs.foldl (fun acc p => dictSet acc p.1 p.2) []

/-- Whitespace accepted between JSON tokens by Python `json.loads`. -/
def isJsonWs (c : Char) : Bool :=
  c = ' ' || c = '\t' || c = '\n' || c = '\r'

def skipWs (cs : List Char) : List Char := cs.dropWhile isJsonWs

def hexVal (c : Char) : Option Nat :=
  if c.isDigit then some (c.toNat - 48)
  else if 'a' ≤ c && c ≤ 'f' then some (c.toNat - 87)
  else if 'A' ≤ c && c ≤ 'F' then some (c.toNat - 55)
  else none

/-- Single-character JSON string escapes. -/
def escChar (c : Char) : Option Char :=
  if c = '"' then some '"'
  else if c = '\\' then some '\\'
  else if c = '/' then some '/'
  else if c = 'b' then some '\x08'
  else if c = 'f' then some '\x0c'
  else if c = 'n' then some '\n'
  else if c = 'r' then some '\r'
  else if c = 't' then some '\t'
  else none

/-- Body of a JSON string after the opening quote; returns the decoded
characters and the input remaining after the closing quote. Raw control
characters are rejected as in Python's default strict mode. Surrogate
`\uXXXX` escapes (unused by this development) decode through `Char.ofNat`. -/
def parseStrBody : Nat → List Char → Option (List Char × List Char)
  | 0, _ => none
  | _ + 1, [] => none
  | f + 1, c :: rest =>
    if c = '"' then some ([], rest)
    else if c = '\\' then
      match rest with
      | 'u' :: h1 :: h2 :: h3 :: h4 :: rest2 =>
        match hexVal h1, hexVal h2, hexVal h3, hexVal h4 with
        | some a, some b, some d, some e =>
          (parseStrBody f rest2).map
            (fun p => (Char.ofNat (((a * 16 + b) * 16 + d) * 16 + e) :: p.1, p.2))
        | _, _, _, _ => none
      | e :: rest2 =>
        match escChar e with
        | some d => (parseStrBody f rest2).map (fun p => (d :: p.1, p.2))
        | none => none
      | [] => none
    else if c.toNat < 32 then none
    else (parseStrBody f rest).map (fun p => (c :: p.1, p.2))

/-- Lexeme of a JSON number (`-?(0|[1-9][0-9]*)(\.[0-9]+)?([eE][+-]?[0-9]+)?`),
as matched by Python's scanner; returns the lexeme and the rest. -/
def parseNumLex (cs : List Char) : Option (List Char × List Char) :=
  let sp : List Char × List Char :=
    match cs with
    | '-' :: t => (['-'], t)
    | _ => ([], cs)
  match sp.2 with
  | [] => none
  | c :: t =>
    if c.isDigit then
      let ip : List Char × List Char :=
        if c = '0' then (['0'], t)
        else (sp.2.takeWhile Char.isDigit, sp.2.dropWhile Char.isDigit)
      let fp : List Char × List Char :=
        match ip.2 with
        | '.' :: t2 =>
          let ds := t2.takeWhile Char.isDigit
          if ds = [] then ([], ip.2)
          else ('.' :: ds, t2.dropWhile Char.isDigit)
        | _ => ([], ip.2)
      let ep : List Char × List Char :=
        match fp.2 with
        | e :: t3 =>
          if e = 'e' || e = 'E' then
            let sg : List Char × List Char :=
              match t3 with
              | s :: t4 => if s = '+' || s = '-' then ([s], t4) else ([], t3)
              | [] => ([], t3)
            let ds := sg.2.takeWhile Char.isDigit
            if ds = [] then ([], fp.2)
            else (e :: (sg.1 ++ ds), sg.2.dropWhile Char.isDigit)
          else ([], fp.2)
        | [] => ([], fp.2)
      some (sp.1 ++ ip.1 ++ fp.1 ++ ep.1, ep.2)
    else none

def litAt (lit : List Char) (cs : List Char) : Option (List Char) :=
  if lit.isPrefixOf cs then some (cs.drop lit.length) else none

mutual

/-- One JSON value, implementing the grammar accepted by Python `json.loads`
(including the `NaN`/`Infinity` constants it allows by default); returns the
value and the remaining input. Fuel-indexed for termination; `jsonLoads`
supplies enough fuel for any input. -/
def parseValue : Nat → List Char → Option (Json × List Char)
  | 0, _ => none
  | f + 1, cs0 =>
    match skipWs cs0 with
    | [] => none
    | c :: rest =>
      if c = '"' then
        (parseStrBody (rest.length + 1) rest).map
          (fun p => (Json.str (String.mk p.1), p.2))
      else if c = '[' then
        match skipWs rest with
        | ']' :: r2 => some (Json.arr [], r2)
        | cs2 => (parseArrElems f cs2).map (fun p => (Json.arr p.1, p.2))
      else if c = lbrace then
        match skipWs rest with
        | d :: r2 =>
          if d = rbrace then some (Json.obj [], r2)
          else
            (parseObjFields f (d :: r2)).map
              (fun p => (Json.obj (dedupFields p.1), p.2))
        | [] => none
      else if c = 't' then
        (litAt ['r', 'u', 'e'] rest).map (fun r => (Json.bool true, r))
      else if c = 'f' then
        (litAt ['a', 'l', 's', 'e'] rest).map (fun r => (Json.bool false, r))
      else if c = 'n' then
        (litAt ['u', 'l', 'l'] rest).map (fun r => (Json.null, r))
      else if c = 'N' then
        (litAt ['a', 'N'] rest).map (fun r => (Json.num "NaN", r))
      else if c = 'I' then
        (litAt ['n', 'f', 'i', 'n', 'i', 't', 'y'] rest).map
          (fun r => (Json.num "Infinity", r))
      else if c = '-' then
        match litAt ['I', 'n', 'f', 'i', 'n', 'i', 't', 'y'] rest with
        | some r => some (Json.num "-Infinity", r)
        | none =>
          (parseNumLex (c :: rest)).map
            (fun p => (Json.num (String.mk p.1), p.2))
      else if c.isDigit then
        (parseNumLex (c :: rest)).map
          (fun p => (Json.num (String.mk p.1), p.2))
      else none

/-- Elements of a non-empty JSON array, after its opening bracket. -/
def parseArrElems : Nat → List Char → Option (List Json × List Char)
  | 0, _ => none
  | f + 1, cs =>
    match parseValue f cs with
    | none => none
    | some (v, rest) =>
      match skipWs rest with
      | ',' :: r2 => (parseArrElems f r2).map (fun p => (v :: p.1, p.2))
      | c :: r2 => if c = ']' then some ([v], r2) else none
      | [] => none

/-- Members of a non-empty JSON object, after its opening brace. -/
def parseObjFields : Nat → List Char → Option (List (String × Json) × List Char)
  | 0, _ => none
  | f + 1, cs =>
    match skipWs cs with
    | c :: rest =>
      if c = '"' then
        match parseStrBody (rest.length + 1) rest with
        | none => none
        | some (key, r1) =>
          match skipWs r1 with
          | ':' :: r2 =>
            match parseValue f r2 with
            | none => none
            | some (v, r3) =>
              match skipWs r3 with
              | ',' :: r4 =>
                (parseObjFields f r4).map
                  (fun p => ((String.mk key, v) :: p.1, p.2))
              | d :: r4 =>
                if d = rbrace then some ([(String.mk key, v)], r4) else none
              | [] => none
          | _ => none
      else none
    | [] => none

end

/-- Python `json.loads`: parse one JSON document, allowing surrounding
whitespace and requiring the whole input to be consumed; `none` models the
`json.JSONDecodeError` the real call raises. -/
def jsonLoads (cs : List Char) : Option Json :=
  match parseValue (2 * cs.length + 4) cs with
  | some (v, rest) => if skipWs rest = [] then some v else none
  | none => none

/-- Index of the first occurrence of `c` in `s`. -/
def firstIdxOf (c : Char) : List Char → Option Nat
  | [] => none
  | x :: xs => if x = c then some 0 else (firstIdxOf c xs).map (fun n => n + 1)

/-- Index of the last occurrence of `c` in `s`. -/
def lastIdxOf (c : Char) (s : List Char) : Option Nat :=
  (firstIdxOf c s.reverse).map (fun k => s.length - 1 - k)

/-- Inclusive slice `s[i..j]`. -/
def sliceChars (s : List Char) (i j : Nat) : List Char :=
  (s.drop i).take (j + 1 - i)

/-- Substring found by `re.search` for a pattern `OP .* CL` under `re.DOTALL`
(the two patterns of `_parse_response`, with `OP CL` being square brackets or
braces). `re.search` picks the leftmost start where the whole pattern can
match: a position holding `OP` with some `CL` strictly after it; such a
position exists exactly when the first `OP` precedes the last `CL`, and the
leftmost one is the first `OP`. The greedy dot-all `.*` then extends the
match to the last `CL` of the string. -/
def spanMatch (op cl : Char) (s : List Char) : Option (List Char) :=
  match firstIdxOf op s, lastIdxOf cl s with
  | some i, some j => if i < j then some (sliceChars s i j) else none
  | _, _ => none

/-- Model of `AppelsProjetFinder._parse_response` (finder.py:414-427).
The array regex is tried first; on a regex hit the matched substring is fed
to `json.loads` directly — since the substring begins with a square bracket,
a successful parse is necessarily a JSON array, and a parse failure raises
`JSONDecodeError`, which the enclosing `try` converts to `[]` (the object
pattern is NOT attempted in that case). Only when the array regex finds no
match is the object pattern tried, its parse wrapped in a one-element list,
with the same exception-to-`[]` behaviour. -/
def parse_response (response_text : List Char) : List Json :=
  match spanMatch '[' ']' response_text with
  | some s =>
    match jsonLoads s with
    | some (Json.arr elems) => elems
    | _ => []
  | none =>
    match spanMatch lbrace rbrace response_text with
    | some s =>
      match jsonLoads s with
      | some v => [v]
      | none => []
    | none => []

/-! ### Date proximity search (`_extraire_info_heuristique`, finder.py:377-405)

The code searches `full_text` with
`re.search(rf"(KW1|KW2|KW3).{0,40}((DATE_NUM)|(DATE_TXT))", text, re.IGNORECASE | re.DOTALL)`
and keeps `m.group(2)` (the date alternation always participates in a
successful match, so `m.lastindex` is 2 and the `else m.group(0)` branch of
the source is dead). The functions below implement exactly the backtracking
semantics of that search: `re.search` tries start positions left to right;
at a start position the keyword alternatives are tried in pattern order; the
greedy dot-all `.{0,40}` tries the largest gap first, shrinking on failure;
the date alternation tries the numeric pattern before the textual one. -/

/-- Word-character test at an index (`false` past either end). -/
def isWordAt (text : List Char) (i : Nat) : Bool :=
  match text.get? i with
  | some c => isWordChar c
  | none => false

/-- Regex `\b` at position `p`: word-ness differs between the characters on
the two sides of the position (out of range counts as non-word). -/
def wordBoundaryAt (text : List Char) (p : Nat) : Bool :=
  match p with
  | 0 => isWordAt text 0
  | q + 1 => isWordAt text q != isWordAt text (q + 1)

/-- Exactly `n` decimal digits starting at `p` (`\d` over ASCII digits). -/
def digitsFrom (text : List Char) (p n : Nat) : Bool :=
  (List.range n).all (fun i =>
    match text.get? (p + i) with
    | some c => c.isDigit
    | none => false)

/-- The separator class of DATE_NUM: dot, slash or dash. -/
def sepAt (text : List Char) (q : Nat) : Bool :=
  match text.get? q with
  | some c => c = '.' || c = '/' || c = '-'
  | none => false

/-- Backtracking order of the counted quantifiers of DATE_NUM (one or two
day digits, a separator, one or two month digits, a separator, two to four
year digits, between word boundaries): each greedy quantifier tries its
largest count first, the leftmost one varying outermost. -/
def numCombos : List (Nat × Nat × Nat) :=
  [(2, 2, 4), (2, 2, 3), (2, 2, 2), (2, 1, 4), (2, 1, 3), (2, 1, 2),
   (1, 2, 4), (1, 2, 3), (1, 2, 2), (1, 1, 4), (1, 1, 3), (1, 1, 2)]

/-- Match of DATE_NUM anchored at `p`; returns the end position. -/
def dateNumAt (text : List Char) (p : Nat) : Option Nat :=
  if wordBoundaryAt text p then
    numCombos.findSome? (fun t =>
      let d1 := t.1
      let d2 := t.2.1
      let y := t.2.2
      let q1 := p + d1
      let q2 := q1 + 1 + d2
      let e := q2 + 1 + y
      if digitsFrom text p d1 && sepAt text q1 && digitsFrom text (q1 + 1) d2 &&
          sepAt text q2 && digitsFrom text (q2 + 1) y && wordBoundaryAt text e then
        some e
      else none)
  else none

/-- Length of the maximal whitespace run at `q`. Greedy `\s+` consumes it
entirely: a shorter run would leave a whitespace character where the
following alternative (a month name or a digit) must match, so backtracking
`\s+` below its maximum can never succeed. -/
def wsRunLen (text : List Char) (q : Nat) : Nat :=
  ((text.drop q).takeWhile isSpaceChar).length

/-- Case-insensitive literal match at a position (text folded by
`lowerChar`, patterns given in lowercase). -/
def litCIAt (lit : List Char) (text : List Char) (p : Nat) : Bool :=
  lit.isPrefixOf (((text.drop p).take lit.length).map lowerChar)

/-- The month alternation of DATE_TXT, in pattern order. No name is a prefix
of another, so at most one alternative can match at a given position and the
alternation never needs to revisit its choice. -/
def moisNames : List (List Char) :=
  [['j', 'a', 'n', 'v', 'i', 'e', 'r'], ['f', 'é', 'v', 'r', 'i', 'e', 'r'],
   ['f', 'e', 'v', 'r', 'i', 'e', 'r'], ['m', 'a', 'r', 's'],
   ['a', 'v', 'r', 'i', 'l'], ['m', 'a', 'i'], ['j', 'u', 'i', 'n'],
   ['j', 'u', 'i', 'l', 'l', 'e', 't'], ['a', 'o', 'û', 't'],
   ['a', 'o', 'u', 't'], ['s', 'e', 'p', 't', 'e', 'm', 'b', 'r', 'e'],
   ['o', 'c', 't', 'o', 'b', 'r', 'e'], ['n', 'o', 'v', 'e', 'm', 'b', 'r', 'e'],
   ['d', 'é', 'c', 'e', 'm', 'b', 'r', 'e'], ['d', 'e', 'c', 'e', 'm', 'b', 'r', 'e']]

def monthAt (text : List Char) (p : Nat) : Option Nat :=
  moisNames.findSome? (fun m => if litCIAt m text p then some (p + m.length) else none)

/-- Match of DATE_TXT (`\b\d{1,2}\s+(?:MONTH)\s+\d{4}\b`) anchored at `p`;
returns the end position. The day quantifier backtracks from two digits to
one; the whitespace runs are maximal (see `wsRunLen`). -/
def dateTxtAt (text : List Char) (p : Nat) : Option Nat :=
  if wordBoundaryAt text p then
    [2, 1].findSome? (fun d1 =>
      if digitsFrom text p d1 then
        let w1 := wsRunLen text (p + d1)
        if w1 = 0 then none
        else
          match monthAt text (p + d1 + w1) with
          | some q =>
            let w2 := wsRunLen text q
            if w2 = 0 then none
            else
              let e := q + w2 + 4
              if digitsFrom text (q + w2) 4 && wordBoundaryAt text e then some e
              else none
          | none => none
      else none)
  else none

/-- The date alternation `((DATE_NUM)|(DATE_TXT))` anchored at `p`: the
numeric pattern is preferred, as in the source order. -/
def dateAt (text : List Char) (p : Nat) : Option Nat :=
  match dateNumAt text p with
  | some e => some e
  | none => dateTxtAt text p

/-- Greedy `.{0,40}` between keyword end `e` and the date: gaps are tried
from the largest down to zero (`gapScan text e 40`); returns start and end
of the date matched at the first (largest) viable gap. -/
def gapScan (text : List Char) (e : Nat) : Nat → Option (Nat × Nat)
  | 0 =>
    match dateAt text e with
    | some e2 => some (e, e2)
    | none => none
  | g + 1 =>
    match dateAt text (e + (g + 1)) with
    | some e2 => some (e + (g + 1), e2)
    | none => gapScan text e g

/-- A keyword alternative is a list of character classes (lowercase), e.g.
`cl[ôo]ture` is modelled as singleton classes around the class `[ôo]`. -/
def kwMatchAt (kw : List (List Char)) (text : List Char) (p : Nat) : Option Nat :=
  if (List.range kw.length).all (fun i =>
      match text.get? (p + i), kw.get? i with
      | some c, some cls => cls.contains (lowerChar c)
      | _, _ => false) then
    some (p + kw.length)
  else none

/-- At one start position: keyword alternatives in pattern order, each
followed by the greedy gap scan; a keyword whose window holds no date fails
and the next alternative is tried. -/
def kwTryAt (kws : List (List (List Char))) (text : List Char) (p : Nat) :
    Option (Nat × Nat) :=
  kws.findSome? (fun kw =>
    match kwMatchAt kw text p with
    | some e => gapScan text e 40
    | none => none)

/-- `re.search` start-position scan, left to right. -/
def posScan (kws : List (List (List Char))) (text : List Char) :
    Nat → Nat → Option (Nat × Nat)
  | 0, _ => none
  | fuel + 1, s =>
    match kwTryAt kws text s with
    | some pe => some pe
    | none => posScan kws text fuel (s + 1)

def subSpan (text : List Char) (p e : Nat) : List Char :=
  (text.drop p).take (e - p)

/-- The full proximity search: result of `m.group(2)` of the regex described
above, `none` when `re.search` finds no match. -/
def searchKwDate (kws : List (List (List Char))) (text : List Char) :
    Option (List Char) :=
  (posScan kws text (text.length + 1) 0).map (fun pe => subSpan text pe.1 pe.2)

/-- Keyword alternation `(cl[ôo]ture|deadline|limite)` for `close_date`. -/
def kwClotureAlts : List (List (List Char)) :=
  [[['c'], ['l'], ['ô', 'o'], ['t'], ['u'], ['r'], ['e']],
   [['d'], ['e'], ['a'], ['d'], ['l'], ['i'], ['n'], ['e']],
   [['l'], ['i'], ['m'], ['i'], ['t'], ['e']]]

/-- Keyword alternation `(d[ée]but|ouverture|start)` for `start_date`. -/
def kwDebutAlts : List (List (List Char)) :=
  [[['d'], ['é', 'e'], ['b'], ['u'], ['t']],
   [['o'], ['u'], ['v'], ['e'], ['r'], ['t'], ['u'], ['r'], ['e']],
   [['s'], ['t'], ['a'], ['r'], ['t']]]

/-! ### The heuristic extractor (finder.py:345-411) -/

/-- Abstraction of the parsed page (`BeautifulSoup` object): outcomes of the
queries the extractor performs. `metaContent p v` is
`soup.find("meta", attrs={p: v}).get("content")` (`none` when the tag or the
attribute is missing); `titleString` is `soup.title` (outer level: tag
present) and `.string` (inner level); `selectText sel` is
`soup.select_one(sel).get_text(strip=True)` when a node exists; `fullText`
is `soup.get_text(separator=" ", strip=True)`. -/
structure Soup where
  metaContent : String → String → Option String
  titleString : Option (Option String)
  selectText : String → Option String
  fullText : List Char

/-- The inner helper `meta(prop, val)`: requires the tag and a truthy (non
empty) `content` attribute, then strips it; an all-whitespace attribute thus
yields `some ""`. -/
def metaTag (soup : Soup) (prop val : String) : Option String :=
  match soup.metaContent prop val with
  | some c => if c = "" then none else some (String.mk (pyStrip c.data))
  | none => none

/-- The inner helper `first_text(selector_list)`: first selector whose node
exists and has non-empty stripped text. -/
def firstText (soup : Soup) (sels : List String) : Option String :=
  sels.findSome? (fun sel =>
    match soup.selectText sel with
    | some t => if t = "" then none else some t
    | none => none)

/-- Python `a or b` over optional strings, where `None` and `""` are falsy. -/
def pyOr (a b : Option String) : Option String :=
  match a with
  | some s => if s = "" then b else a
  | none => b

/-- Python `a or d` with a string default. -/
def pyOrDefault (a : Option String) (d : String) : String :=
  match a with
  | some s => if s = "" then d else s
  | none => d

/-- The `<title>` contribution: `soup.title.string.strip()` when the tag and
its string both exist (`if soup.title and soup.title.string else None`). -/
def titleStrOf (soup : Soup) : Option String :=
  match soup.titleString with
  | some (some s) => some (String.mk (pyStrip s.data))
  | _ => none

/-- The `titre` chain: og:title meta, twitter:title meta, `<title>` string
(stripped when the tag and its string exist), then `first_text(["h1","h2"])`. -/
def titreHeuristique (soup : Soup) : Option String :=
  pyOr (metaTag soup "property" "og:title")
    (pyOr (metaTag soup "name" "twitter:title")
      (pyOr (titleStrOf soup) (firstText soup ["h1", "h2"])))

/-- The `description` chain: og:description, description, twitter:description. -/
def descriptionHeuristique (soup : Soup) : Option String :=
  pyOr (metaTag soup "property" "og:description")
    (pyOr (metaTag soup "name" "description")
      (metaTag soup "name" "twitter:description"))

/-- Model of `AppelsProjetFinder._extraire_info_heuristique`. The body is a
pure computation over the parsed page, so the surrounding `try`/`except`
never fires and the function always returns a record (`some`); the `Option`
return type mirrors the Python signature. Every matched date token is
non-empty, so the final `or` defaults fire exactly when the searches fail. -/
def extraire_info_heuristique (soup : Soup) (url : String) :
    Option (List (String × Json)) :=
  let titre := titreHeuristique soup
  let description := descriptionHeuristique soup
  let organisation := metaTag soup "property" "og:site_name"
  let dateCloture := (searchKwDate kwClotureAlts soup.fullText).map String.mk
  let dateDebut := (searchKwDate kwDebutAlts soup.fullText).map String.mk
  some [("titre", Json.str (pyOrDefault titre "Sans titre")),
        ("organisation", Json.str (pyOrDefault organisation "Non spécifié")),
        ("date_debut", Json.str (pyOrDefault dateDebut "Non spécifiée")),
        ("date_cloture", Json.str (pyOrDefault dateCloture "Non spécifiée")),
        ("url", Json.str url),
        ("description", Json.str (pyOrDefault description ""))]

/-! ### Finder state, environment and operations -/

/-- Prompts built by the finder and consumed by the external model. The
fixed French template text surrounds exactly these data, so the information
content of each prompt is captured by its constructor arguments; in
particular `extract` embeds `contenu[:4000]`, the visible text truncated to
the 4000-character budget. -/
inductive Prompt where
  | search (sujet : String) : Prompt
  | extract (contenu4000 : String) : Prompt
deriving Repr, DecidableEq

/-- Outcomes of the external collaborators for one run. `openaiChat` models
`_call_openai_chat`, which catches every SDK error internally and returns
`""`. `anthropicMsg` models `client.messages.create` plus
`message.content[0].text`, with `.error` for a raised exception.
`openrouterChat` models the HTTP POST of `_call_openrouter_chat`: `.error
msg` is an HTTP status >= 400 or a raised exception (with `msg` the text the
code appends to `ai_errors`), `.ok` the reply content. `fetch` models
`requests.get` plus `BeautifulSoup`: `none` is a raised exception, `some` a
parsed page (a status >= 400 still delivers its body, which the code
deliberately keeps processing). -/
structure FinderEnv where
  openaiChat : Prompt → String
  anthropicMsg : Prompt → Except String String
  openrouterChat : Prompt → Except String String
  fetch : String → Option Soup

/-- The mutable attributes of one `AppelsProjetFinder` instance. -/
structure FinderState where
  api_key : String
  api_provider : String
  results : List Json
  ai_calls : Nat
  ai_success : Nat
  heuristic_used : Nat
  ai_errors : List String

/-- Model of `AppelsProjetFinder.__init__` (finder.py:29-43): the key is
stripped, and a key whose lowercase form begins with `sk-or-` forces the
`openrouter` provider; otherwise the configured value is kept. (`api_key or
""` collapses a missing key to `""`, which strips to `""`, so a plain
`String` argument is faithful.) -/
def finderInit (api_key : String) (api_provider : String) : FinderState :=
  let keyClean := pyStrip api_key.data
  { api_key := String.mk keyClean
    api_provider :=
      if ['s', 'k', '-', 'o', 'r', '-'].isPrefixOf (pyLower keyClean) then
        "openrouter"
      else api_provider
    results := []
    ai_calls := 0
    ai_success := 0
    heuristic_used := 0
    ai_errors := [] }

/-- Model of `_call_openrouter_chat` (finder.py:188-234): an HTTP error or an
exception appends its message to `ai_errors` and yields `""`; an empty reply
appends the fixed warning; otherwise the content is returned unchanged. -/
def call_openrouter_chat (env : FinderEnv) (st : FinderState) (p : Prompt) :
    FinderState × String :=
  match env.openrouterChat p with
  | .error msg => ({ st with ai_errors := st.ai_errors ++ [msg] }, "")
  | .ok c =>
    if c = "" then
      ({ st with ai_errors := st.ai_errors ++ ["OpenRouter: réponse vide"] }, "")
    else (st, c)

/-- Model of `rechercher_avec_ia` and the three `_recherche_*` helpers
(finder.py:57-271). Every provider branch funnels the raw model text through
`_parse_response`; SDK exceptions are caught and yield `[]`; an unknown
provider logs a warning and returns `[]`. -/
def rechercher_avec_ia (env : FinderEnv) (st : FinderState) (sujet : String) :
    FinderState × List Json :=
  if st.api_provider = "openai" then
    (st, parse_response (env.openaiChat (Prompt.search sujet)).data)
  else if st.api_provider = "anthropic" then
    match env.anthropicMsg (Prompt.search sujet) with
    | .ok t => (st, parse_response t.data)
    | .error _ => (st, [])
  else if st.api_provider = "openrouter" then
    let r := call_openrouter_chat env st (Prompt.search sujet)
    (r.1, parse_response r.2.data)
  else (st, [])

/-- Message recorded when `result[0]` is not a dict, so the item assignment
`result[0]["url"] = url` raises `TypeError`, caught by the enclosing
`except`, which appends `str(exc)` to `ai_errors`. -/
def typeErrorMsg : String := "TypeError: item assignment on a non-dict value"

/-- Model of `_extraire_info_avec_ia` (finder.py:302-343). The extraction
prompt embeds `contenu[:4000]`. Only the `openai` and `openrouter` providers
have a branch; any other configured provider (including `anthropic`) falls
through to `return None` without touching any counter. In a taken branch
`ai_calls` is incremented, the reply is parsed, and on a non-empty parse the
first element gets its `url` overwritten and `ai_success` is incremented;
parsing to `[]` just returns `None`, and a non-dict first element raises at
the assignment, appending the error and returning `None`. -/
def extraire_info_avec_ia (env : FinderEnv) (st : FinderState)
    (contenu : String) (url : String) :
    FinderState × Option (List (String × Json)) :=
  let p := Prompt.extract (contenu.take 4000)
  if st.api_provider = "openai" then
    let st1 := { st with ai_calls := st.ai_calls + 1 }
    match parse_response (env.openaiChat p).data with
    | Json.obj kvs :: _ =>
      ({ st1 with ai_success := st1.ai_success + 1 },
       some (dictSet kvs "url" (Json.str url)))
    | _ :: _ => ({ st1 with ai_errors := st1.ai_errors ++ [typeErrorMsg] }, none)
    | [] => (st1, none)
  else if st.api_provider = "openrouter" then
    let st1 := { st with ai_calls := st.ai_calls + 1 }
    let r := call_openrouter_chat env st1 p
    match parse_response r.2.data with
    | Json.obj kvs :: _ =>
      ({ r.1 with ai_success := r.1.ai_success + 1 },
       some (dictSet kvs "url" (Json.str url)))
    | _ :: _ => ({ r.1 with ai_errors := r.1.ai_errors ++ [typeErrorMsg] }, none)
    | [] => (r.1, none)
  else (st, none)

/-- Model of `scraper_url` (finder.py:274-300). A fetch/parse exception is
caught and yields `none` (no heuristic fallback: there is no page). With a
page, the visible text is extracted and AI extraction attempted; a non-null
AI record is returned as is; otherwise `heuristic_used` is incremented and
the heuristic record for the same page and url is returned. -/
def scraper_url (env : FinderEnv) (st : FinderState) (url : String) :
    FinderState × Option (List (String × Json)) :=
  match env.fetch url with
  | none => (st, none)
  | some soup =>
    let textContent := String.mk soup.fullText
    let r := extraire_info_avec_ia env st textContent url
    match r.2 with
    | some found => (r.1, some found)
    | none =>
      ({ r.1 with heuristic_used := r.1.heuristic_used + 1 },
       extraire_info_heuristique soup url)

/-! ### The orchestrator (`traiter_fichier`, finder.py:430-478) -/

/-- One input table as `pandas.read_excel` delivers it: column names and
rows; a cell is `none` for a missing value (`pd.notna` false) and `some s`
for a value whose `str()` is `s`. Rows align with `cols` by position. -/
structure DataFrame where
  cols : List String
  rows : List (List (Option String))

/-- Column-name normalisation `c.strip().lower()` of the rename step. -/
def normCol (c : String) : String := String.mk (pyLower (pyStrip c.data))

def subject_candidates : List String :=
  ["sujet", "subject", "thème", "theme", "topic", "mots_clés", "mots-cles",
   "keywords"]

def url_candidates : List String := ["url", "lien", "link", "urls", "liens"]

/-- First candidate present among the normalised column names, i.e.
`next((c for c in candidates if c in df_proc.columns), None)`. -/
def resolveCol (cands : List String) (t : DataFrame) : Option String :=
  cands.find? (fun c => (t.cols.map normCol).contains c)

/-- Cell of a row under a normalised column name: the value at the position
of the first matching column. (The tables modelled have pairwise distinct
normalised names; with duplicates pandas would build duplicate labels and
row indexing would return a sub-series instead of one value.) -/
def rowCell (t : DataFrame) (row : List (Option String)) (name : String) :
    Option String :=
  match (t.cols.map normCol).indexOf? name with
  | some i =>
    match row.get? i with
    | some cell => cell
    | none => none
  | none => none

/-- Row test `pd.notna(v) and str(v).strip()`: a present cell whose stripped
text is non-empty. -/
def cellPresent (c : Option String) : Bool :=
  match c with
  | some s => !(pyStrip s.data).isEmpty
  | none => false

/-- One step of the subject loop: on a present subject cell, search and
extend `results` with everything returned. -/
def subjStep (env : FinderEnv) (t : DataFrame) (sc : String)
    (st : FinderState) (row : List (Option String)) : FinderState :=
  match rowCell t row sc with
  | some s =>
    if (pyStrip s.data).isEmpty then st
    else
      let r := rechercher_avec_ia env st s
      { r.1 with results := r.1.results ++ r.2 }
  | none => st

/-- One step of the url loop: on a present url cell, scrape and append the
record when one is produced. -/
def urlStep (env : FinderEnv) (t : DataFrame) (uc : String)
    (st : FinderState) (row : List (Option String)) : FinderState :=
  match rowCell t row uc with
  | some u =>
    if (pyStrip u.data).isEmpty then st
    else
      let r := scraper_url env st u
      match r.2 with
      | some found => { r.1 with results := r.1.results ++ [Json.obj found] }
      | none => r.1
  | none => st

/-- Model of `traiter_fichier` (finder.py:430-478). The pandas read (an
external collaborator) is supplied as the `df` argument: `none` models a
read failure, after which the method returns at once, leaving the state
untouched (in particular `results` is NOT reset). Otherwise columns are
normalised, the two roles resolved (a table resolving neither only logs a
warning), `results` is reset to `[]`, and the subject loop runs over all
rows before the url loop starts. The fixed `time.sleep(1)` throttle does not
affect state and is not modelled. -/
def traiter_fichier (env : FinderEnv) (st : FinderState)
    (df : Option DataFrame) : FinderState :=
  match df with
  | none => st
  | some t =>
    let st0 := { st with results := [] }
    let st1 :=
      match resolveCol subject_candidates t with
      | some c => t.rows.foldl (subjStep env t c) st0
      | none => st0
    match resolveCol url_candidates t with
    | some c => t.rows.foldl (urlStep env t c) st1
    | none => st1

/-- The state-mutating public operations of one finder instance, for
sequences of method calls. -/
inductive FinderOp where
  | rechercher (sujet : String) : FinderOp
  | scraper (url : String) : FinderOp
  | traiter (df : Option DataFrame) : FinderOp

def applyOp (env : FinderEnv) (st : FinderState) : FinderOp → FinderState
  | .rechercher s => (rechercher_avec_ia env st s).1
  | .scraper u => (scraper_url env st u).1
  | .traiter df => traiter_fichier env st df

/-! ### Pure characterisation of the stateful operations

The control flow of the finder never depends on the diagnostic counters or
on the accumulated `results`: each operation appends to lists and adds to
counters. The definitions below compute those contributions as pure
functions of the environment, the provider and the inputs, and the lemmas
prove each stateful operation equal to the corresponding record update.
These are the shared workhorses for the claim theorems. -/

/-- Reply content delivered by `_call_openrouter_chat`: the raw content on
success, `""` on HTTP error or exception (the empty-reply branch also
returns the content, which is `""`). -/
def orContent (env : FinderEnv) (p : Prompt) : String :=
  match env.openrouterChat p with
  | .error _ => ""
  | .ok c => c

/-- Error messages appended to `ai_errors` by `_call_openrouter_chat`. -/
def orErrors (env : FinderEnv) (p : Prompt) : List String :=
  match env.openrouterChat p with
  | .error m => [m]
  | .ok c => if c = "" then ["OpenRouter: réponse vide"] else []

theorem call_openrouter_chat_spec (env : FinderEnv) (st : FinderState)
    (p : Prompt) :
    call_openrouter_chat env st p =
      ({ st with ai_errors := st.ai_errors ++ orErrors env p },
       orContent env p) := by
  unfold call_openrouter_chat orErrors orContent
  cases env.openrouterChat p with
  | error m => rfl
  | ok c =>
    by_cases h : c = "" <;> simp [h]

/-- Records returned by one subject search, as a pure function. -/
def searchOutput (env : FinderEnv) (prov : String) (sujet : String) :
    List Json :=
  if prov = "openai" then
    parse_response (env.openaiChat (Prompt.search sujet)).data
  else if prov = "anthropic" then
    match env.anthropicMsg (Prompt.search sujet) with
    | .ok t => parse_response t.data
    | .error _ => []
  else if prov = "openrouter" then
    parse_response (orContent env (Prompt.search sujet)).data
  else []

/-- Errors appended by one subject search (only the OpenRouter path logs). -/
def searchErrors (env : FinderEnv) (prov : String) (sujet : String) :
    List String :=
  if prov = "openrouter" then orErrors env (Prompt.search sujet) else []

theorem rechercher_avec_ia_spec (env : FinderEnv) (st : FinderState)
    (sujet : String) :
    rechercher_avec_ia env st sujet =
      ({ st with ai_errors :=
           st.ai_errors ++ searchErrors env st.api_provider sujet },
       searchOutput env st.api_provider sujet) := by
  obtain ⟨k, pr, res, cl, su, hu, er⟩ := st
  unfold rechercher_avec_ia searchOutput searchErrors
  by_cases h1 : pr = "openai"
  · subst h1; simp
  · by_cases h2 : pr = "anthropic"
    · subst h2
      simp only [String.reduceEq, if_false, if_true, ite_true, ite_false,
        reduceIte]
      cases env.anthropicMsg (Prompt.search sujet) <;> simp
    · by_cases h3 : pr = "openrouter"
      · subst h3; simp [call_openrouter_chat_spec]
      · simp [h1, h2, h3]

/-- Record produced by one AI extraction attempt, as a pure function. -/
def extractOutput (env : FinderEnv) (prov : String) (contenu url : String) :
    Option (List (String × Json)) :=
  if prov = "openai" then
    match parse_response (env.openaiChat (Prompt.extract (contenu.take 4000))).data with
    | Json.obj kvs :: _ => some (dictSet kvs "url" (Json.str url))
    | _ :: _ => none
    | [] => none
  else if prov = "openrouter" then
    match parse_response (orContent env (Prompt.extract (contenu.take 4000))).data with
    | Json.obj kvs :: _ => some (dictSet kvs "url" (Json.str url))
    | _ :: _ => none
    | [] => none
  else none

/-- Counter and error-log increments of one AI extraction attempt:
`(ai_calls, ai_success, appended errors)`. -/
def extractDeltas (env : FinderEnv) (prov : String) (contenu : String) :
    Nat × Nat × List String :=
  if prov = "openai" then
    match parse_response (env.openaiChat (Prompt.extract (contenu.take 4000))).data with
    | Json.obj _ :: _ => (1, 1, [])
    | _ :: _ => (1, 0, [typeErrorMsg])
    | [] => (1, 0, [])
  else if prov = "openrouter" then
    match parse_response (orContent env (Prompt.extract (contenu.take 4000))).data with
    | Json.obj _ :: _ => (1, 1, orErrors env (Prompt.extract (contenu.take 4000)))
    | _ :: _ =>
      (1, 0, orErrors env (Prompt.extract (contenu.take 4000)) ++ [typeErrorMsg])
    | [] => (1, 0, orErrors env (Prompt.extract (contenu.take 4000)))
  else (0, 0, [])

theorem extraire_info_avec_ia_spec (env : FinderEnv) (st : FinderState)
    (contenu url : String) :
    extraire_info_avec_ia env st contenu url =
      ({ st with
           ai_calls := st.ai_calls + (extractDeltas env st.api_provider contenu).1,
           ai_success :=
             st.ai_success + (extractDeltas env st.api_provider contenu).2.1,
           ai_errors :=
             st.ai_errors ++ (extractDeltas env st.api_provider contenu).2.2 },
       extractOutput env st.api_provider contenu url) := by
  obtain ⟨k, pr, res, cl, su, hu, er⟩ := st
  unfold extraire_info_avec_ia extractOutput extractDeltas
  by_cases h1 : pr = "openai"
  · subst h1
    simp only [if_pos rfl]
    cases hp : parse_response (env.openaiChat (Prompt.extract (contenu.take 4000))).data with
    | nil => simp
    | cons head tail => cases head <;> simp
  · by_cases h2 : pr = "openrouter"
    · subst h2
      simp only [String.reduceEq, reduceIte]
      rw [call_openrouter_chat_spec]
      cases hp : parse_response (orContent env (Prompt.extract (contenu.take 4000))).data with
      | nil => simp
      | cons head tail => cases head <;> simp [List.append_assoc]
    · simp [h1, h2]

/-- Record produced by the whole scrape of one URL, as a pure function: the
AI record when the attempt succeeds, else the heuristic record, and nothing
when the fetch raised. -/
def scrapeOutput (env : FinderEnv) (prov : String) (url : String) :
    Option (List (String × Json)) :=
  match env.fetch url with
  | none => none
  | some soup =>
    match extractOutput env prov (String.mk soup.fullText) url with
    | some r => some r
    | none => extraire_info_heuristique soup url

/-- Counter and error-log increments of the whole scrape of one URL:
`(ai_calls, ai_success, heuristic_used, appended errors)`. -/
def scrapeDeltas (env : FinderEnv) (prov : String) (url : String) :
    Nat × Nat × Nat × List String :=
  match env.fetch url with
  | none => (0, 0, 0, [])
  | some soup =>
    let d := extractDeltas env prov (String.mk soup.fullText)
    match extractOutput env prov (String.mk soup.fullText) url with
    | some _ => (d.1, d.2.1, 0, d.2.2)
    | none => (d.1, d.2.1, 1, d.2.2)

theorem scraper_url_spec (env : FinderEnv) (st : FinderState) (url : String) :
    scraper_url env st url =
      ({ st with
           ai_calls := st.ai_calls + (scrapeDeltas env st.api_provider url).1,
           ai_success :=
             st.ai_success + (scrapeDeltas env st.api_provider url).2.1,
           heuristic_used :=
             st.heuristic_used + (scrapeDeltas env st.api_provider url).2.2.1,
           ai_errors :=
             st.ai_errors ++ (scrapeDeltas env st.api_provider url).2.2.2 },
       scrapeOutput env st.api_provider url) := by
  unfold scraper_url scrapeOutput scrapeDeltas
  cases hf : env.fetch url with
  | none => simp
  | some soup =>
    simp only []
    rw [extraire_info_avec_ia_spec]
    cases hx : extractOutput env st.api_provider (String.mk soup.fullText) url with
    | some r => simp
    | none => simp

/-- Records contributed by one row of the subject loop. -/
def subjRowOutput (env : FinderEnv) (prov : String) (t : DataFrame)
    (sc : String) (row : List (Option String)) : List Json :=
  match rowCell t row sc with
  | some s => if (pyStrip s.data).isEmpty then [] else searchOutput env prov s
  | none => []

/-- Errors contributed by one row of the subject loop. -/
def subjRowErrors (env : FinderEnv) (prov : String) (t : DataFrame)
    (sc : String) (row : List (Option String)) : List String :=
  match rowCell t row sc with
  | some s => if (pyStrip s.data).isEmpty then [] else searchErrors env prov s
  | none => []

theorem subjStep_spec (env : FinderEnv) (t : DataFrame) (sc : String)
    (st : FinderState) (row : List (Option String)) :
    subjStep env t sc st row =
      { st with
          results :=
            st.results ++ subjRowOutput env st.api_provider t sc row,
          ai_errors :=
            st.ai_errors ++ subjRowErrors env st.api_provider t sc row } := by
  unfold subjStep subjRowOutput subjRowErrors
  cases rowCell t row sc with
  | none => simp
  | some s =>
    by_cases h : (pyStrip s.data).isEmpty
    · simp [h]
    · simp only [h, if_false, Bool.false_eq_true, ite_false]
      rw [rechercher_avec_ia_spec]

theorem subj_foldl_spec (env : FinderEnv) (t : DataFrame) (sc : String)
    (rows : List (List (Option String))) (st : FinderState) :
    rows.foldl (subjStep env t sc) st =
      { st with
          results :=
            st.results ++ rows.flatMap (subjRowOutput env st.api_provider t sc),
          ai_errors :=
            st.ai_errors ++
              rows.flatMap (subjRowErrors env st.api_provider t sc) } := by
  induction rows generalizing st with
  | nil => simp
  | cons r rs ih =>
    simp only [List.foldl_cons, List.flatMap_cons]
    rw [subjStep_spec, ih]
    simp [List.append_assoc]

/-- Records contributed by one row of the url loop (`[]` or one record). -/
def urlRowOutput (env : FinderEnv) (prov : String) (t : DataFrame)
    (uc : String) (row : List (Option String)) : List Json :=
  match rowCell t row uc with
  | some u =>
    if (pyStrip u.data).isEmpty then []
    else
      match scrapeOutput env prov u with
      | some r => [Json.obj r]
      | none => []
  | none => []

/-- Counter and error increments contributed by one row of the url loop. -/
def urlRowDeltas (env : FinderEnv) (prov : String) (t : DataFrame)
    (uc : String) (row : List (Option String)) : Nat × Nat × Nat × List String :=
  match rowCell t row uc with
  | some u =>
    if (pyStrip u.data).isEmpty then (0, 0, 0, [])
    else scrapeDeltas env prov u
  | none => (0, 0, 0, [])

theorem urlStep_spec (env : FinderEnv) (t : DataFrame) (uc : String)
    (st : FinderState) (row : List (Option String)) :
    urlStep env t uc st row =
      { st with
          results := st.results ++ urlRowOutput env st.api_provider t uc row,
          ai_calls :=
            st.ai_calls + (urlRowDeltas env st.api_provider t uc row).1,
          ai_success :=
            st.ai_success + (urlRowDeltas env st.api_provider t uc row).2.1,
          heuristic_used :=
            st.heuristic_used +
              (urlRowDeltas env st.api_provider t uc row).2.2.1,
          ai_errors :=
            st.ai_errors ++
              (urlRowDeltas env st.api_provider t uc row).2.2.2 } := by
  unfold urlStep urlRowOutput urlRowDeltas
  cases rowCell t row uc with
  | none => simp
  | some u =>
    by_cases h : (pyStrip u.data).isEmpty
    · simp [h]
    · simp only [h, if_false, Bool.false_eq_true, ite_false]
      rw [scraper_url_spec]
      cases hs : scrapeOutput env st.api_provider u <;> simp

theorem url_foldl_spec (env : FinderEnv) (t : DataFrame) (uc : String)
    (rows : List (List (Option String))) (st : FinderState) :
    rows.foldl (urlStep env t uc) st =
      { st with
          results :=
            st.results ++ rows.flatMap (urlRowOutput env st.api_provider t uc),
          ai_calls :=
            st.ai_calls +
              (rows.map
                (fun r => (urlRowDeltas env st.api_provider t uc r).1)).sum,
          ai_success :=
            st.ai_success +
              (rows.map
                (fun r => (urlRowDeltas env st.api_provider t uc r).2.1)).sum,
          heuristic_used :=
            st.heuristic_used +
              (rows.map
                (fun r => (urlRowDeltas env st.api_provider t uc r).2.2.1)).sum,
          ai_errors :=
            st.ai_errors ++
              rows.flatMap
                (fun r => (urlRowDeltas env st.api_provider t uc r).2.2.2) } := by
  induction rows generalizing st with
  | nil => simp
  | cons r rs ih =>
    simp only [List.foldl_cons, List.flatMap_cons, List.map_cons, List.sum_cons]
    rw [urlStep_spec, ih]
    simp [List.append_assoc, Nat.add_assoc]

/-- Records of one whole run over a table: the subject loop contributions
(row order) followed by the url loop contributions (row order). -/
def runResults (env : FinderEnv) (prov : String) (t : DataFrame) : List Json :=
  (match resolveCol subject_candidates t with
   | some sc => t.rows.flatMap (subjRowOutput env prov t sc)
   | none => []) ++
  (match resolveCol url_candidates t with
   | some uc => t.rows.flatMap (urlRowOutput env prov t uc)
   | none => [])

/-- Total `ai_calls` increment of one run (only the url loop calls the
extraction path; the subject searches never touch the counters). -/
def runCalls (env : FinderEnv) (prov : String) (t : DataFrame) : Nat :=
  match resolveCol url_candidates t with
  | some uc => (t.rows.map (fun r => (urlRowDeltas env prov t uc r).1)).sum
  | none => 0

def runSuccess (env : FinderEnv) (prov : String) (t : DataFrame) : Nat :=
  match resolveCol url_candidates t with
  | some uc => (t.rows.map (fun r => (urlRowDeltas env prov t uc r).2.1)).sum
  | none => 0

def runHeur (env : FinderEnv) (prov : String) (t : DataFrame) : Nat :=
  match resolveCol url_candidates t with
  | some uc => (t.rows.map (fun r => (urlRowDeltas env prov t uc r).2.2.1)).sum
  | none => 0

def runErrors (env : FinderEnv) (prov : String) (t : DataFrame) : List String :=
  (match resolveCol subject_candidates t with
   | some sc => t.rows.flatMap (subjRowErrors env prov t sc)
   | none => []) ++
  (match resolveCol url_candidates t with
   | some uc => t.rows.flatMap (fun r => (urlRowDeltas env prov t uc r).2.2.2)
   | none => [])

/-- Master characterisation of one successful run: `results` is replaced by
the run's own records, the counters and the error log grow by the run's
pure contributions, and key and provider are untouched. -/
theorem traiter_fichier_spec (env : FinderEnv) (st : FinderState)
    (t : DataFrame) :
    traiter_fichier env st (some t) =
      { st with
          results := runResults env st.api_provider t,
          ai_calls := st.ai_calls + runCalls env st.api_provider t,
          ai_success := st.ai_success + runSuccess env st.api_provider t,
          heuristic_used :=
            st.heuristic_used + runHeur env st.api_provider t,
          ai_errors := st.ai_errors ++ runErrors env st.api_provider t } := by
  unfold traiter_fichier runResults runCalls runSuccess runHeur runErrors
  cases hs : resolveCol subject_candidates t with
  | none =>
    cases hu : resolveCol url_candidates t with
    | none => simp [hs, hu]
    | some uc =>
      simp only [hs, hu]
      rw [url_foldl_spec]
      simp
  | some sc =>
    cases hu : resolveCol url_candidates t with
    | none =>
      simp only [hs, hu]
      rw [subj_foldl_spec]
      simp
    | some uc =>
      simp only [hs, hu]
      rw [subj_foldl_spec, url_foldl_spec]
      simp [List.append_assoc]

/-- A failed table read leaves the state untouched: the method returns
before the column resolution and before `results` is reset. -/
theorem traiter_fichier_none (env : FinderEnv) (st : FinderState) :
    traiter_fichier env st none = st := rfl

/-! ### Helper lemmas on dicts -/

theorem find?_map_update (kvs : List (String × Json)) (k : String) (v : Json)
    (h : kvs.any (fun p => p.1 = k) = true) :
    (kvs.map (fun p => if p.1 = k then (k, v) else p)).find?
        (fun p => p.1 = k) = some (k, v) := by
  induction kvs with
  | nil => simp at h
  | cons q qs ih =>
    by_cases hq : q.1 = k
    · simp [hq]
    · rw [List.any_cons] at h
      simp only [hq, decide_eq_true_eq, Bool.or_eq_true] at h
      have h2 : qs.any (fun p => p.1 = k) = true := by
        rcases h with h | h
        · exact h.elim
        · exact h
      simp [hq, ih h2]

theorem find?_append_single (kvs : List (String × Json)) (k : String) (v : Json)
    (h : kvs.any (fun p => p.1 = k) = false) :
    (kvs ++ [(k, v)]).find? (fun p => p.1 = k) = some (k, v) := by
  induction kvs with
  | nil => simp
  | cons q qs ih =>
    simp only [List.any_cons, Bool.or_eq_false_iff] at h
    have hq : ¬q.1 = k := by simpa using h.1
    simp [hq, ih h.2]

/-- Assigning a key then reading it back yields the assigned value. -/
theorem dictGet_dictSet (kvs : List (String × Json)) (k : String) (v : Json) :
    dictGet (dictSet kvs k v) k = some v := by
  unfold dictGet dictSet
  by_cases h : kvs.any (fun p => p.1 = k)
  · simp [h, find?_map_update kvs k v h]
  · simp only [Bool.not_eq_true] at h
    simp [h, find?_append_single kvs k v h]

/-! ### Claim C8 -/

/-- C8: for every api_key string and configured provider, the constructor
selects the OpenRouter variant exactly when the trimmed key, compared case
insensitively, begins with the `sk-or-` prefix, overriding the configured
provider; otherwise the configured provider value is kept as given. -/
theorem c8_openrouter_key_detection (key prov : String) :
    (['s', 'k', '-', 'o', 'r', '-'].isPrefixOf (pyLower (pyStrip key.data)) = true →
        (finderInit key prov).api_provider = "openrouter") ∧
      (['s', 'k', '-', 'o', 'r', '-'].isPrefixOf (pyLower (pyStrip key.data)) = false →
        (finderInit key prov).api_provider = prov) := by
  unfold finderInit
  constructor
  · intro h; simp [h]
  · intro h; simp [h]

/-- Witness for C8 at concrete inputs: a padded upper-case OpenRouter key
forces the variant over a configured `anthropic`, and a non-OpenRouter key
keeps the configured value. -/
theorem c8_openrouter_key_detection_witness :
    (finderInit "  SK-OR-abc123  " "anthropic").api_provider = "openrouter" ∧
      (finderInit "sk-ant-xyz" "anthropic").api_provider = "anthropic" :=
  ⟨(c8_openrouter_key_detection "  SK-OR-abc123  " "anthropic").1 (by decide),
   (c8_openrouter_key_detection "sk-ant-xyz" "anthropic").2 (by decide)⟩

/-! ### Claim C2 -/

/-- Every record of `extractOutput` carries the source url. -/
theorem extractOutput_url (env : FinderEnv) (prov : String)
    (contenu url : String) (r : List (String × Json))
    (h : extractOutput env prov contenu url = some r) :
    dictGet r "url" = some (Json.str url) := by
  unfold extractOutput at h
  by_cases h1 : prov = "openai"
  · subst h1
    simp only [String.reduceEq, reduceIte] at h
    split at h
    · rw [Option.some.injEq] at h
      subst h
      exact dictGet_dictSet _ _ _
    · exact absurd h (by simp)
    · exact absurd h (by simp)
  · by_cases h2 : prov = "openrouter"
    · subst h2
      simp only [String.reduceEq, reduceIte] at h
      split at h
      · rw [Option.some.injEq] at h
        subst h
        exact dictGet_dictSet _ _ _
      · exact absurd h (by simp)
      · exact absurd h (by simp)
    · simp [h1, h2] at h

/-- The heuristic record carries the source url. -/
theorem heuristique_url (soup : Soup) (url : String) (r : List (String × Json))
    (h : extraire_info_heuristique soup url = some r) :
    dictGet r "url" = some (Json.str url) := by
  unfold extraire_info_heuristique at h
  cases h
  simp [dictGet]

/-- C2: every record returned by the scrape path carries the input URL
exactly, whether it came from AI extraction (which overwrites the model's
`url` value) or from the heuristic extractor. -/
theorem c2_scrape_url_overwritten (env : FinderEnv) (st : FinderState)
    (url : String) (r : List (String × Json))
    (h : (scraper_url env st url).2 = some r) :
    dictGet r "url" = some (Json.str url) := by
  rw [scraper_url_spec] at h
  unfold scrapeOutput at h
  cases hf : env.fetch url with
  | none =>
    simp only [hf] at h
    exact Option.noConfusion h
  | some soup =>
    simp only [hf] at h
    cases hx : extractOutput env st.api_provider (String.mk soup.fullText) url with
    | some r0 =>
      simp only [hx, Option.some.injEq] at h
      subst h
      exact extractOutput_url env st.api_provider (String.mk soup.fullText) url r0 hx
    | none =>
      simp only [hx] at h
      exact heuristique_url soup url r h

/-! ### Concrete fixtures for closed instances -/

/-- A concrete page used to exercise the model on closed inputs. -/
def demoSoup : Soup :=
  { metaContent := fun p v =>
      if p = "property" && v = "og:title" then some " Spring Grant 2026 "
      else none
    titleString := some (some "fallback title")
    selectText := fun _ => none
    fullText := "Candidatures: deadline 15 mars 2026 merci".data }

/-- A concrete environment: the OpenAI reply embeds JSON in prose, the
OpenRouter endpoint fails with an HTTP error, the Anthropic endpoint
answers, and exactly one URL resolves to the demo page. -/
def demoEnv : FinderEnv :=
  { openaiChat := fun p =>
      match p with
      | .search _ => "ok: [\x7b\"titre\": \"T1\"\x7d] fin"
      | .extract _ => "\x7b\"titre\": \"AI\", \"url\": \"autre\"\x7d"
    anthropicMsg := fun _ => .ok "[\x7b\"titre\": \"A1\"\x7d]"
    openrouterChat := fun _ => .error "OpenRouter HTTP 500"
    fetch := fun u => if u = "http://demo" then some demoSoup else none }

/-- A one-row table resolving both roles at once. -/
def demoTable : DataFrame :=
  { cols := [" Sujet ", "Lien"]
    rows := [[some "energie", some "http://demo"]] }

/-! ### Claim C2 witness -/

/-- Witness for C2: the concrete environment makes the AI extraction emit a
record whose model-provided `url` value `"autre"` is overwritten in place by
the scraped URL. -/
theorem c2_scrape_url_overwritten_witness :
    dictGet [("titre", Json.str "AI"), ("url", Json.str "http://demo")]
        "url" = some (Json.str "http://demo") :=
  c2_scrape_url_overwritten demoEnv (finderInit "k" "openai") "http://demo"
    [("titre", Json.str "AI"), ("url", Json.str "http://demo")] (by rfl)

/-! ### Claim C3 -/

/-- C3: with both a subject and a url column resolved, the result list is
exactly the subject loop contributions in row iteration order followed by
the url loop contributions in row iteration order — all subject-search
results precede every url-scrape record; consequently a single row holding
both a subject and a url contributes through both loops independently, one
search result set plus one scrape record, never merged. -/
theorem c3_subject_results_before_url (env : FinderEnv) (st : FinderState)
    (t : DataFrame) (sc uc : String)
    (hs : resolveCol subject_candidates t = some sc)
    (hu : resolveCol url_candidates t = some uc) :
    (traiter_fichier env st (some t)).results =
        t.rows.flatMap (subjRowOutput env st.api_provider t sc) ++
          t.rows.flatMap (urlRowOutput env st.api_provider t uc) ∧
      ∀ row, t.rows = [row] →
        (traiter_fichier env st (some t)).results =
          subjRowOutput env st.api_provider t sc row ++
            urlRowOutput env st.api_provider t uc row := by
  have h1 : (traiter_fichier env st (some t)).results =
      runResults env st.api_provider t := by
    rw [traiter_fichier_spec]
  constructor
  · rw [h1]
    unfold runResults
    rw [hs, hu]
  · intro row hrow
    rw [h1]
    unfold runResults
    rw [hs, hu, hrow]
    simp

/-- Witness for C3 at a concrete table and environment: a single row with
both roles yields the subject-search record then the scrape record. -/
theorem c3_subject_results_before_url_witness :
    (traiter_fichier demoEnv (finderInit "k" "openai") (some demoTable)).results =
      [Json.obj [("titre", Json.str "T1")],
       Json.obj [("titre", Json.str "AI"), ("url", Json.str "http://demo")]] := by
  have h :=
    (c3_subject_results_before_url demoEnv (finderInit "k" "openai") demoTable
        "sujet" "lien" (by rfl) (by rfl)).2
      [some "energie", some "http://demo"] (by rfl)
  rw [h]
  rfl

/-! ### Claim C4 -/

/-- C4: a failed table read is the only fatal condition: it leaves the state
entirely untouched, before any row is processed, so no record is produced.
All other failures are per-row and isolated: a fetch exception makes the
row's scrape yield no record, and any row whose subject search returns
nothing and whose scrape produces no record contributes zero records while
the remaining rows contribute exactly as if the failing row were absent.
(The model is total, so no exception escapes `traiter_fichier`.) -/
theorem c4_read_failure_only_fatal (env : FinderEnv) (st : FinderState) :
    traiter_fichier env st none = st ∧
      (∀ t uc row u, rowCell t row uc = some u → env.fetch u = none →
          urlRowOutput env st.api_provider t uc row = []) ∧
      ∀ t pre row post,
        t.rows = pre ++ row :: post →
        (∀ sc, resolveCol subject_candidates t = some sc →
            subjRowOutput env st.api_provider t sc row = []) →
        (∀ uc, resolveCol url_candidates t = some uc →
            urlRowOutput env st.api_provider t uc row = []) →
        (traiter_fichier env st (some t)).results =
          (traiter_fichier env st (some { t with rows := pre ++ post })).results := by
  refine ⟨rfl, ?_, ?_⟩
  · intro t uc row u hcell hf
    unfold urlRowOutput
    rw [hcell]
    by_cases hp : (pyStrip u.data).isEmpty
    · simp [hp]
    · simp only [hp, Bool.false_eq_true, if_false, ite_false]
      unfold scrapeOutput
      rw [hf]
  · intro t pre row post ht hsubj hurl
    rw [traiter_fichier_spec, traiter_fichier_spec]
    show runResults env st.api_provider t =
      runResults env st.api_provider { t with rows := pre ++ post }
    unfold runResults
    have hcs : resolveCol subject_candidates { t with rows := pre ++ post } =
        resolveCol subject_candidates t := rfl
    have hcu : resolveCol url_candidates { t with rows := pre ++ post } =
        resolveCol url_candidates t := rfl
    rw [hcs, hcu]
    cases hs : resolveCol subject_candidates t with
    | none =>
      cases hu : resolveCol url_candidates t with
      | none => rfl
      | some uc =>
        show t.rows.flatMap (urlRowOutput env st.api_provider t uc) =
          (pre ++ post).flatMap (urlRowOutput env st.api_provider t uc)
        rw [ht]
        simp [hurl uc hu]
    | some sc =>
      cases hu : resolveCol url_candidates t with
      | none =>
        show t.rows.flatMap (subjRowOutput env st.api_provider t sc) ++ [] =
          (pre ++ post).flatMap (subjRowOutput env st.api_provider t sc) ++ []
        rw [ht]
        simp [hsubj sc hs]
      | some uc =>
        show t.rows.flatMap (subjRowOutput env st.api_provider t sc) ++
            t.rows.flatMap (urlRowOutput env st.api_provider t uc) =
          (pre ++ post).flatMap (subjRowOutput env st.api_provider t sc) ++
            (pre ++ post).flatMap (urlRowOutput env st.api_provider t uc)
        rw [ht]
        simp [hsubj sc hs, hurl uc hu]

/-- A two-row table whose second row fails on both paths: its subject cell
is missing and its url points to a host whose fetch raises. -/
def demoTableFailing : DataFrame :=
  { cols := [" Sujet ", "Lien"]
    rows := [[some "energie", some "http://demo"], [none, some "http://down"]] }

/-- Witness for C4: dropping the failing second row leaves the result list
unchanged — the failure is isolated and the other row still contributes. -/
theorem c4_read_failure_only_fatal_witness :
    (traiter_fichier demoEnv (finderInit "k" "openai")
        (some demoTableFailing)).results =
      (traiter_fichier demoEnv (finderInit "k" "openai")
        (some demoTable)).results :=
  (c4_read_failure_only_fatal demoEnv (finderInit "k" "openai")).2.2
    demoTableFailing [[some "energie", some "http://demo"]]
    [none, some "http://down"] [] (by rfl)
    (fun sc hsc => by
      have h2 : some "sujet" = some sc := hsc
      injection h2 with h3
      subst h3
      rfl)
    (fun uc huc => by
      have h2 : some "lien" = some uc := huc
      injection h2 with h3
      subst h3
      rfl)

/-! ### Claim C10 -/

/-- The run never touches the configured provider. -/
theorem traiter_fichier_provider (env : FinderEnv) (st : FinderState)
    (df : Option DataFrame) :
    (traiter_fichier env st df).api_provider = st.api_provider := by
  cases df with
  | none => rfl
  | some t => rw [traiter_fichier_spec]

/-- C10: calling `traiter_fichier` a second time on the same instance (after
any first call) replaces the result list — it is reset at the start of row
processing, so only the second run's records remain — while the diagnostic
counters and the error log are not reset: each grows by the second run's own
contribution on top of whatever the first call accumulated. -/
theorem c10_second_run_replaces_results (env : FinderEnv) (st : FinderState)
    (df1 : Option DataFrame) (t2 : DataFrame) :
    (traiter_fichier env (traiter_fichier env st df1) (some t2)).results =
        runResults env st.api_provider t2 ∧
      (traiter_fichier env (traiter_fichier env st df1) (some t2)).ai_calls =
        (traiter_fichier env st df1).ai_calls +
          runCalls env st.api_provider t2 ∧
      (traiter_fichier env (traiter_fichier env st df1) (some t2)).ai_success =
        (traiter_fichier env st df1).ai_success +
          runSuccess env st.api_provider t2 ∧
      (traiter_fichier env (traiter_fichier env st df1) (some t2)).heuristic_used =
        (traiter_fichier env st df1).heuristic_used +
          runHeur env st.api_provider t2 ∧
      (traiter_fichier env (traiter_fichier env st df1) (some t2)).ai_errors =
        (traiter_fichier env st df1).ai_errors ++
          runErrors env st.api_provider t2 := by
  rw [traiter_fichier_spec env (traiter_fichier env st df1) t2,
    traiter_fichier_provider env st df1]
  exact ⟨rfl, rfl, rfl, rfl, rfl⟩

/-! ### Claim C9 -/

theorem extractDeltas_success_le_calls (env : FinderEnv) (prov contenu : String) :
    (extractDeltas env prov contenu).2.1 ≤ (extractDeltas env prov contenu).1 := by
  unfold extractDeltas
  split
  · split <;> simp
  · split
    · split <;> simp
    · simp

theorem scrapeDeltas_success_le_calls (env : FinderEnv) (prov url : String) :
    (scrapeDeltas env prov url).2.1 ≤ (scrapeDeltas env prov url).1 := by
  unfold scrapeDeltas
  cases env.fetch url with
  | none => simp
  | some soup =>
    simp only []
    split <;> exact extractDeltas_success_le_calls env prov _

theorem urlRowDeltas_success_le_calls (env : FinderEnv) (prov : String)
    (t : DataFrame) (uc : String) (row : List (Option String)) :
    (urlRowDeltas env prov t uc row).2.1 ≤ (urlRowDeltas env prov t uc row).1 := by
  unfold urlRowDeltas
  cases rowCell t row uc with
  | none => simp
  | some u =>
    simp only []
    split
    · simp
    · exact scrapeDeltas_success_le_calls env prov u

theorem runSuccess_le_runCalls (env : FinderEnv) (prov : String)
    (t : DataFrame) :
    runSuccess env prov t ≤ runCalls env prov t := by
  unfold runSuccess runCalls
  cases resolveCol url_candidates t with
  | none => simp
  | some uc =>
    simp only []
    exact List.sum_le_sum (fun r _ => urlRowDeltas_success_le_calls env prov t uc r)

/-- Each public operation adds the same or fewer successes than calls, and
never decrements either counter. -/
theorem applyOp_counters (env : FinderEnv) (st : FinderState) (op : FinderOp) :
    ∃ dc ds, ds ≤ dc ∧ (applyOp env st op).ai_calls = st.ai_calls + dc ∧
      (applyOp env st op).ai_success = st.ai_success + ds := by
  cases op with
  | rechercher s =>
    refine ⟨0, 0, Nat.le_refl 0, ?_, ?_⟩ <;>
      (rw [applyOp, rechercher_avec_ia_spec]; simp)
  | scraper u =>
    refine ⟨(scrapeDeltas env st.api_provider u).1,
      (scrapeDeltas env st.api_provider u).2.1,
      scrapeDeltas_success_le_calls env st.api_provider u, ?_, ?_⟩ <;>
      rw [applyOp, scraper_url_spec]
  | traiter df =>
    cases df with
    | none => exact ⟨0, 0, Nat.le_refl 0, rfl, rfl⟩
    | some t =>
      refine ⟨runCalls env st.api_provider t, runSuccess env st.api_provider t,
        runSuccess_le_runCalls env st.api_provider t, ?_, ?_⟩ <;>
        rw [applyOp, traiter_fichier_spec]

/-- C9: after any sequence of public operations on one freshly constructed
instance, `ai_success <= ai_calls` holds: each operation increments the two
counters by amounts with `ds <= dc` (a success is only counted inside an
extraction attempt that already counted its call) and never decrements or
resets either. -/
theorem c9_success_le_calls (env : FinderEnv) (key prov : String)
    (ops : List FinderOp) :
    (ops.foldl (applyOp env) (finderInit key prov)).ai_success ≤
        (ops.foldl (applyOp env) (finderInit key prov)).ai_calls ∧
      ∀ (st : FinderState) (op : FinderOp),
        ∃ dc ds, ds ≤ dc ∧
          (applyOp env st op).ai_calls = st.ai_calls + dc ∧
          (applyOp env st op).ai_success = st.ai_success + ds := by
  constructor
  · have main : ∀ (l : List FinderOp) (st : FinderState),
        st.ai_success ≤ st.ai_calls →
        (l.foldl (applyOp env) st).ai_success ≤
          (l.foldl (applyOp env) st).ai_calls := by
      intro l
      induction l with
      | nil => intro st h; exact h
      | cons op rest ih =>
        intro st h
        apply ih
        obtain ⟨dc, ds, hle, hc, hs2⟩ := applyOp_counters env st op
        rw [hc, hs2]
        exact Nat.add_le_add h hle
    exact main ops (finderInit key prov) (Nat.le_refl 0)
  · exact fun st op => applyOp_counters env st op

/-! ### Claim C5 -/

/-- Falsy optional string under Python truthiness: absent, or empty. -/
def pyFalsy (a : Option String) : Prop := a = none ∨ a = some ""

theorem pyOr_falsy (a b : Option String) (h : pyFalsy a) : pyOr a b = b := by
  rcases h with h | h <;> simp [h, pyOr]

theorem pyOr_truthy (a b : Option String) (s : String) (ha : a = some s)
    (hs : s ≠ "") : pyOr a b = some s := by
  simp [ha, pyOr, hs]

theorem pyOrDefault_falsy (a : Option String) (d : String) (h : pyFalsy a) :
    pyOrDefault a d = d := by
  rcases h with h | h <;> simp [h, pyOrDefault]

theorem pyOrDefault_none (d : String) : pyOrDefault none d = d := rfl

/-- C5: the heuristic extractor always returns a record (its body is pure,
so the guarding `try` never fires and no field is null), derives the title
by the first-match-wins chain Open Graph title, Twitter title, `<title>`
string, first heading (`h1` then `h2` selector), and falls back to the
explicit sentinels — `"Sans titre"`, `"Non spécifié"`, `"Non spécifiée"`,
`""` — when every source of a field is absent or empty. -/
theorem c5_title_chain_and_sentinels (soup : Soup) (url : String) :
    (∃ r, extraire_info_heuristique soup url = some r) ∧
      (∀ s, metaTag soup "property" "og:title" = some s → s ≠ "" →
        titreHeuristique soup = some s) ∧
      (pyFalsy (metaTag soup "property" "og:title") →
        ∀ s, metaTag soup "name" "twitter:title" = some s → s ≠ "" →
          titreHeuristique soup = some s) ∧
      (pyFalsy (metaTag soup "property" "og:title") →
        pyFalsy (metaTag soup "name" "twitter:title") →
        ∀ s, titleStrOf soup = some s → s ≠ "" →
          titreHeuristique soup = some s) ∧
      (pyFalsy (metaTag soup "property" "og:title") →
        pyFalsy (metaTag soup "name" "twitter:title") →
        pyFalsy (titleStrOf soup) →
        titreHeuristique soup = firstText soup ["h1", "h2"]) ∧
      (pyFalsy (metaTag soup "property" "og:title") →
        pyFalsy (metaTag soup "name" "twitter:title") →
        pyFalsy (titleStrOf soup) →
        firstText soup ["h1", "h2"] = none →
        pyFalsy (metaTag soup "property" "og:site_name") →
        pyFalsy (metaTag soup "property" "og:description") →
        pyFalsy (metaTag soup "name" "description") →
        pyFalsy (metaTag soup "name" "twitter:description") →
        searchKwDate kwClotureAlts soup.fullText = none →
        searchKwDate kwDebutAlts soup.fullText = none →
        extraire_info_heuristique soup url =
          some [("titre", Json.str "Sans titre"),
                ("organisation", Json.str "Non spécifié"),
                ("date_debut", Json.str "Non spécifiée"),
                ("date_cloture", Json.str "Non spécifiée"),
                ("url", Json.str url),
                ("description", Json.str "")]) := by
  refine ⟨⟨_, rfl⟩, ?_, ?_, ?_, ?_, ?_⟩
  · intro s hog hs
    unfold titreHeuristique
    exact pyOr_truthy _ _ s hog hs
  · intro hog s htw hs
    unfold titreHeuristique
    rw [pyOr_falsy _ _ hog]
    exact pyOr_truthy _ _ s htw hs
  · intro hog htw s htl hs
    unfold titreHeuristique
    rw [pyOr_falsy _ _ hog, pyOr_falsy _ _ htw]
    exact pyOr_truthy _ _ s htl hs
  · intro hog htw htl
    unfold titreHeuristique
    rw [pyOr_falsy _ _ hog, pyOr_falsy _ _ htw, pyOr_falsy _ _ htl]
  · intro hog htw htl hh horg hd1 hd2 hd3 hcl hdeb
    have ht : titreHeuristique soup = none := by
      unfold titreHeuristique
      rw [pyOr_falsy _ _ hog, pyOr_falsy _ _ htw, pyOr_falsy _ _ htl, hh]
    have hdesc : pyFalsy (descriptionHeuristique soup) := by
      unfold descriptionHeuristique
      rw [pyOr_falsy _ _ hd1, pyOr_falsy _ _ hd2]
      exact hd3
    simp only [extraire_info_heuristique, ht, hcl, hdeb]
    rw [pyOrDefault_falsy _ _ horg, pyOrDefault_falsy _ _ hdesc]
    rfl

/-- A page with no metadata, no headings and no text at all. -/
def emptySoup : Soup :=
  { metaContent := fun _ _ => none
    titleString := none
    selectText := fun _ => none
    fullText := [] }

/-- Witness for C5: on the empty page every field falls back to its
sentinel, and the record is still produced. -/
theorem c5_title_chain_and_sentinels_witness :
    extraire_info_heuristique emptySoup "http://x" =
      some [("titre", Json.str "Sans titre"),
            ("organisation", Json.str "Non spécifié"),
            ("date_debut", Json.str "Non spécifiée"),
            ("date_cloture", Json.str "Non spécifiée"),
            ("url", Json.str "http://x"),
            ("description", Json.str "")] :=
  (c5_title_chain_and_sentinels emptySoup "http://x").2.2.2.2.2
    (Or.inl rfl) (Or.inl rfl) (Or.inl rfl) rfl (Or.inl rfl) (Or.inl rfl)
    (Or.inl rfl) (Or.inl rfl) rfl rfl

/-! ### Claim C7 -/

/-- A finder configured for the Anthropic variant. -/
def stAnthropic : FinderState := finderInit "sk-ant-key" "anthropic"

/-- Counterexample for C7 as stated: under the Anthropic variant, a scrape
performs no AI extraction attempt at all — `_extraire_info_avec_ia` has
branches only for `openai` and `openrouter`, so it returns `None` with the
state untouched (no `ai_calls` increment), even though the environment's
Anthropic endpoint would have answered; the scraper goes straight to the
heuristic extractor. -/
theorem c7_counterexample :
    (extraire_info_avec_ia demoEnv stAnthropic "du texte" "http://demo").2 =
        none ∧
      (extraire_info_avec_ia demoEnv stAnthropic "du texte" "http://demo").1 =
        stAnthropic ∧
      (scraper_url demoEnv stAnthropic "http://demo").1.ai_calls = 0 ∧
      (scraper_url demoEnv stAnthropic "http://demo").1.heuristic_used = 1 ∧
      (scraper_url demoEnv stAnthropic "http://demo").2 =
        extraire_info_heuristique demoSoup "http://demo" :=
  ⟨rfl, rfl, rfl, rfl, rfl⟩

theorem extractDeltas_calls_one (env : FinderEnv) (prov contenu : String)
    (h : prov = "openai" ∨ prov = "openrouter") :
    (extractDeltas env prov contenu).1 = 1 := by
  rcases h with h | h <;> subst h <;>
    (unfold extractDeltas
     simp only [String.reduceEq, reduceIte]
     split <;> rfl)

/-- C7 amended: only the OpenAI-compatible and OpenRouter variants attempt
an AI model call during extraction — each such attempt counts exactly one
`ai_calls` and depends only on the scraped text truncated to the
4000-character budget, and it happens before any heuristic fallback (the
scrape record is the AI record whenever the attempt yields one, and the
heuristic record only otherwise). The Anthropic variant performs no
extraction attempt: it returns no record and leaves the state untouched. -/
theorem c7_extraction_providers (env : FinderEnv) (st : FinderState)
    (contenu url : String) :
    ((st.api_provider = "openai" ∨ st.api_provider = "openrouter") →
        (extraire_info_avec_ia env st contenu url).1.ai_calls =
          st.ai_calls + 1) ∧
      (st.api_provider = "anthropic" →
        extraire_info_avec_ia env st contenu url = (st, none)) ∧
      (∀ contenu2, contenu.take 4000 = contenu2.take 4000 →
        extraire_info_avec_ia env st contenu url =
          extraire_info_avec_ia env st contenu2 url) ∧
      (∀ soup, env.fetch url = some soup →
        (scraper_url env st url).2 =
          match (extraire_info_avec_ia env st (String.mk soup.fullText) url).2 with
          | some r => some r
          | none => extraire_info_heuristique soup url) := by
  refine ⟨?_, ?_, ?_, ?_⟩
  · intro h
    rw [extraire_info_avec_ia_spec]
    show st.ai_calls + (extractDeltas env st.api_provider contenu).1 = st.ai_calls + 1
    rw [extractDeltas_calls_one env st.api_provider contenu h]
  · intro h
    unfold extraire_info_avec_ia
    rw [h]
    rfl
  · intro contenu2 h
    unfold extraire_info_avec_ia
    rw [h]
  · intro soup hf
    rw [scraper_url_spec, extraire_info_avec_ia_spec]
    show scrapeOutput env st.api_provider url = _
    unfold scrapeOutput
    rw [hf]

/-- Witness for C7 amended, at concrete inputs: an OpenAI-configured
extraction counts one call; an OpenRouter one does too; and the Anthropic
state is returned untouched with no record. -/
theorem c7_extraction_providers_witness :
    (extraire_info_avec_ia demoEnv (finderInit "k" "openai") "texte" "u").1.ai_calls = 1 ∧
      (extraire_info_avec_ia demoEnv (finderInit "sk-or-k" "openai") "texte" "u").1.ai_calls = 1 ∧
      extraire_info_avec_ia demoEnv stAnthropic "texte" "u" = (stAnthropic, none) :=
  ⟨(c7_extraction_providers demoEnv (finderInit "k" "openai") "texte" "u").1
      (Or.inl rfl),
   (c7_extraction_providers demoEnv (finderInit "sk-or-k" "openai") "texte" "u").1
      (Or.inr rfl),
   (c7_extraction_providers demoEnv stAnthropic "texte" "u").2.1 rfl⟩

/-! ### Claim C1 -/

theorem firstIdxOf_get? (c : Char) (s : List Char) (i : Nat)
    (h : firstIdxOf c s = some i) : s.get? i = some c := by
  induction s generalizing i with
  | nil => simp [firstIdxOf] at h
  | cons x xs ih =>
    rw [firstIdxOf] at h
    by_cases hx : x = c
    · rw [if_pos hx, Option.some.injEq] at h
      subst h
      simp [hx]
    · rw [if_neg hx, Option.map_eq_some'] at h
      obtain ⟨j, hj, hij⟩ := h
      subst hij
      simpa using ih j hj

/-- A substring matched by the `OP .* CL` pattern begins with `OP`. -/
theorem spanMatch_shape (op cl : Char) (s out : List Char)
    (h : spanMatch op cl s = some out) : ∃ rest, out = op :: rest := by
  unfold spanMatch at h
  cases h1 : firstIdxOf op s with
  | none =>
    simp only [h1] at h
    exact Option.noConfusion h
  | some i =>
    cases h2 : lastIdxOf cl s with
    | none =>
      simp only [h1, h2] at h
      exact Option.noConfusion h
    | some j =>
      simp only [h1, h2] at h
      by_cases hij : i < j
      · rw [if_pos hij, Option.some.injEq] at h
        subst h
        have hg : s.get? i = some op := firstIdxOf_get? op s i h1
        have hlen : i < s.length := by
          by_contra hc
          rw [List.get?_eq_none.2 (Nat.le_of_not_lt hc)] at hg
          exact Option.noConfusion hg
        have hdrop : s.drop i = s[i] :: s.drop (i + 1) :=
          List.drop_eq_getElem_cons hlen
        have hgi : s[i] = op := by
          have := List.getElem?_eq_getElem hlen
          rw [← List.get?_eq_getElem?] at this
          rw [this] at hg
          exact Option.some.inj hg.symm |>.symm
        unfold sliceChars
        rw [hdrop, hgi]
        have hsucc : j + 1 - i = (j - i) + 1 := by omega
        rw [hsucc, List.take_succ_cons]
        exact ⟨_, rfl⟩
      · rw [if_neg hij] at h
        exact Option.noConfusion h

/-- A successful `json.loads` of a document beginning with a square bracket
is an array. -/
theorem parseValue_lbracket (f : Nat) (rest : List Char) (v : Json)
    (r2 : List Char) (h : parseValue f ('[' :: rest) = some (v, r2)) :
    ∃ elems, v = Json.arr elems := by
  match f with
  | 0 => simp [parseValue] at h
  | f + 1 =>
    unfold parseValue at h
    simp only [skipWs, List.dropWhile_cons, show isJsonWs '[' = false from rfl,
      Bool.false_eq_true, if_false, ite_false,
      show (('[' : Char) = '"') = False from by simp,
      show (('[' : Char) = '[') = True from by simp,
      if_true, ite_true] at h
    split at h
    · rw [Option.some.injEq, Prod.mk.injEq] at h
      exact ⟨[], h.1.symm⟩
    · rw [Option.map_eq_some'] at h
      obtain ⟨p, _, hp⟩ := h
      rw [Prod.mk.injEq] at hp
      exact ⟨p.1, hp.1.symm⟩

theorem jsonLoads_lbracket (rest : List Char) (v : Json)
    (h : jsonLoads ('[' :: rest) = some v) : ∃ elems, v = Json.arr elems := by
  unfold jsonLoads at h
  cases hp : parseValue (2 * ('[' :: rest).length + 4) ('[' :: rest) with
  | none =>
    simp only [hp] at h
    exact Option.noConfusion h
  | some p =>
    simp only [hp] at h
    by_cases he : skipWs p.2 = []
    · rw [if_pos he, Option.some.injEq] at h
      subst h
      exact parseValue_lbracket _ rest p.1 p.2 hp
    · rw [if_neg he] at h
      exact Option.noConfusion h

/-- C1 amended: the parser locates the array-looking substring (greedy,
dot-all) and parses it — a success is necessarily a JSON array, whose parsed
elements are returned; but when that substring is present and fails to
parse, the raised `JSONDecodeError` is caught and the empty list returned
WITHOUT attempting the object stage. Only when no array-looking substring
exists is the object-looking substring located, its parse wrapped in a
one-element list, a failure again yielding the empty list; with neither
substring present the result is empty. The function is total on every
input (the model of "never raises"). -/
theorem c1_parse_response_strategy (text : List Char) :
    (spanMatch '[' ']' text = none → spanMatch lbrace rbrace text = none →
        parse_response text = []) ∧
      (∀ s v, spanMatch '[' ']' text = some s → jsonLoads s = some v →
        ∃ elems, v = Json.arr elems ∧ parse_response text = elems) ∧
      (∀ s, spanMatch '[' ']' text = some s → jsonLoads s = none →
        parse_response text = []) ∧
      (∀ s v, spanMatch '[' ']' text = none →
        spanMatch lbrace rbrace text = some s → jsonLoads s = some v →
        parse_response text = [v]) ∧
      (∀ s, spanMatch '[' ']' text = none →
        spanMatch lbrace rbrace text = some s → jsonLoads s = none →
        parse_response text = []) := by
  refine ⟨?_, ?_, ?_, ?_, ?_⟩
  · intro h1 h2
    unfold parse_response
    simp only [h1, h2]
  · intro s v h1 h2
    obtain ⟨rest, hrest⟩ := spanMatch_shape '[' ']' text s h1
    subst hrest
    obtain ⟨elems, helems⟩ := jsonLoads_lbracket rest v h2
    subst helems
    refine ⟨elems, rfl, ?_⟩
    unfold parse_response
    simp only [h1, h2]
  · intro s h1 h2
    unfold parse_response
    simp only [h1, h2]
  · intro s v h1 h2 h3
    unfold parse_response
    simp only [h1, h2, h3]
  · intro s h1 h2 h3
    unfold parse_response
    simp only [h1, h2, h3]

/-- Counterexample for C1 as stated: on `"[oops] {"k": 1}"` (braces written
here in words) the array-looking substring `[oops]` is present but fails to
parse; the object-looking substring is present and parses; yet the result
is the empty list, not the one-element wrap the claim predicts — the object
stage is skipped because the exception from the array parse aborts the
whole method. -/
theorem c1_counterexample :
    parse_response "[oops] \x7b\"k\": 1\x7d".data = [] ∧
      spanMatch '[' ']' "[oops] \x7b\"k\": 1\x7d".data = some "[oops]".data ∧
      jsonLoads "[oops]".data = none ∧
      spanMatch lbrace rbrace "[oops] \x7b\"k\": 1\x7d".data =
        some "\x7b\"k\": 1\x7d".data ∧
      jsonLoads "\x7b\"k\": 1\x7d".data = some (Json.obj [("k", Json.num "1")]) ∧
      parse_response "[oops] \x7b\"k\": 1\x7d".data ≠
        [Json.obj [("k", Json.num "1")]] := by
  refine ⟨rfl, rfl, rfl, rfl, rfl, ?_⟩
  intro h
  have h2 : ([] : List Json) = [Json.obj [("k", Json.num "1")]] := h
  exact List.noConfusion h2

/-- Witness for C1 amended at concrete inputs: prose around a lone object
is wrapped in a one-element list, and a present-but-malformed array
substring yields the empty list. -/
theorem c1_parse_response_strategy_witness :
    parse_response "bla \x7b\"k\": 1\x7d bla".data =
        [Json.obj [("k", Json.num "1")]] ∧
      parse_response "[oops, rien]".data = [] :=
  ⟨(c1_parse_response_strategy "bla \x7b\"k\": 1\x7d bla".data).2.2.2.1
      "\x7b\"k\": 1\x7d".data (Json.obj [("k", Json.num "1")]) rfl rfl rfl,
   (c1_parse_response_strategy "[oops, rien]".data).2.2.1
      "[oops, rien]".data rfl rfl⟩

/-! ### Claim C6 -/

/-- The greedy gap scan returns the date at the greatest viable offset: all
larger offsets within the budget hold no date. -/
theorem gapScan_eq_some (text : List Char) (e : Nat) :
    ∀ g p e2, gapScan text e g = some (p, e2) →
      ∃ gg, gg ≤ g ∧ p = e + gg ∧ dateAt text (e + gg) = some e2 ∧
        ∀ g2, gg < g2 → g2 ≤ g → dateAt text (e + g2) = none := by
  intro g
  induction g with
  | zero =>
    intro p e2 h
    unfold gapScan at h
    cases hd : dateAt text e with
    | none =>
      simp only [hd] at h
      exact Option.noConfusion h
    | some e3 =>
      simp only [hd, Option.some.injEq, Prod.mk.injEq] at h
      obtain ⟨hp, he2⟩ := h
      refine ⟨0, Nat.le_refl 0, hp.symm, ?_, ?_⟩
      · rw [Nat.add_zero, hd, he2]
      · intro g2 h1 h2
        exact absurd (Nat.lt_of_lt_of_le h1 h2) (Nat.lt_irrefl 0)
  | succ g ih =>
    intro p e2 h
    unfold gapScan at h
    cases hd : dateAt text (e + (g + 1)) with
    | some e3 =>
      simp only [hd, Option.some.injEq, Prod.mk.injEq] at h
      obtain ⟨hp, he2⟩ := h
      refine ⟨g + 1, Nat.le_refl _, hp.symm, ?_, ?_⟩
      · rw [hd, he2]
      · intro g2 h1 h2
        exact absurd (Nat.lt_of_lt_of_le h1 h2) (Nat.lt_irrefl _)
    | none =>
      simp only [hd] at h
      obtain ⟨gg, hgg, hp, hda, hmax⟩ := ih p e2 h
      refine ⟨gg, Nat.le_succ_of_le hgg, hp, hda, ?_⟩
      intro g2 h1 h2
      rcases Nat.lt_or_ge g2 (g + 1) with hlt | hge
      · exact hmax g2 h1 (Nat.lt_succ_iff.mp hlt)
      · have heq : g2 = g + 1 := Nat.le_antisymm h2 hge
        rw [heq]
        exact hd

theorem gapScan_eq_none (text : List Char) (e : Nat) :
    ∀ g, gapScan text e g = none → ∀ g2, g2 ≤ g → dateAt text (e + g2) = none := by
  intro g
  induction g with
  | zero =>
    intro h g2 hg2
    unfold gapScan at h
    have hz : g2 = 0 := Nat.le_zero.mp hg2
    subst hz
    cases hd : dateAt text e with
    | some e3 => simp [hd] at h
    | none => rw [Nat.add_zero]; exact hd
  | succ g ih =>
    intro h g2 hg2
    unfold gapScan at h
    cases hd : dateAt text (e + (g + 1)) with
    | some e3 => simp [hd] at h
    | none =>
      simp only [hd] at h
      rcases Nat.lt_or_ge g2 (g + 1) with hlt | hge
      · exact ih h g2 (Nat.lt_succ_iff.mp hlt)
      · have heq : g2 = g + 1 := Nat.le_antisymm hg2 hge
        rw [heq]
        exact hd

/-- The position scan returns the leftmost viable start: all earlier
positions fail. -/
theorem posScan_eq_some (kws : List (List (List Char))) (text : List Char) :
    ∀ fuel s pe, posScan kws text fuel s = some pe →
      ∃ s2, s ≤ s2 ∧ kwTryAt kws text s2 = some pe ∧
        ∀ q, s ≤ q → q < s2 → kwTryAt kws text q = none := by
  intro fuel
  induction fuel with
  | zero =>
    intro s pe h
    simp [posScan] at h
  | succ fuel ih =>
    intro s pe h
    unfold posScan at h
    cases hk : kwTryAt kws text s with
    | some pe2 =>
      simp only [hk, Option.some.injEq] at h
      subst h
      exact ⟨s, Nat.le_refl s, hk,
        fun q h1 h2 => absurd (Nat.lt_of_le_of_lt h1 h2) (Nat.lt_irrefl s)⟩
    | none =>
      simp only [hk] at h
      obtain ⟨s2, hs2, hkw, hmin⟩ := ih (s + 1) pe h
      refine ⟨s2, Nat.le_of_succ_le hs2, hkw, ?_⟩
      intro q h1 h2
      rcases Nat.eq_or_lt_of_le h1 with heq | hlt
      · rw [← heq]
        exact hk
      · exact hmin q hlt h2

theorem posScan_eq_none (kws : List (List (List Char))) (text : List Char) :
    ∀ fuel s, posScan kws text fuel s = none →
      ∀ q, s ≤ q → q < s + fuel → kwTryAt kws text q = none := by
  intro fuel
  induction fuel with
  | zero =>
    intro s h q h1 h2
    omega
  | succ fuel ih =>
    intro s h q h1 h2
    unfold posScan at h
    cases hk : kwTryAt kws text s with
    | some pe => simp [hk] at h
    | none =>
      simp only [hk] at h
      rcases Nat.eq_or_lt_of_le h1 with heq | hlt
      · rw [← heq]
        exact hk
      · exact ih (s + 1) h q hlt (by omega)

/-- A non-empty keyword alternative cannot match at or past the end of the
text. -/
theorem kwMatchAt_none_of_past_end (kw : List (List Char)) (text : List Char)
    (p : Nat) (hk : kw ≠ []) (hp : text.length ≤ p) :
    kwMatchAt kw text p = none := by
  unfold kwMatchAt
  split
  · next hall =>
    exfalso
    have h0 : (0 : Nat) ∈ List.range kw.length := by
      rw [List.mem_range]
      exact List.length_pos.mpr hk
    have hat := List.all_eq_true.mp hall 0 h0
    rw [List.get?_eq_none.mpr (by omega : text.length ≤ p + 0)] at hat
    have hred : (false : Bool) = true := hat
    exact Bool.noConfusion hred
  · rfl

/-- Soundness of the proximity search: a returned token is the date starting
at the greatest offset at most 40 characters after the end of the leftmost
viable keyword occurrence. -/
theorem searchKwDate_eq_some (kws : List (List (List Char))) (text : List Char)
    (d : List Char) (h : searchKwDate kws text = some d) :
    ∃ p kw e gg e2, kw ∈ kws ∧ kwMatchAt kw text p = some e ∧ gg ≤ 40 ∧
      dateAt text (e + gg) = some e2 ∧ d = subSpan text (e + gg) e2 ∧
      (∀ g2, gg < g2 → g2 ≤ 40 → dateAt text (e + g2) = none) ∧
      (∀ q, q < p → kwTryAt kws text q = none) := by
  unfold searchKwDate at h
  rw [Option.map_eq_some'] at h
  obtain ⟨pe, hpe, hd⟩ := h
  obtain ⟨s2, _, hkw, hmin⟩ := posScan_eq_some kws text (text.length + 1) 0 pe hpe
  unfold kwTryAt at hkw
  obtain ⟨kw, hmem, hf⟩ := List.exists_of_findSome?_eq_some hkw
  cases hm : kwMatchAt kw text s2 with
  | none =>
    rw [hm] at hf
    exact Option.noConfusion hf
  | some e =>
    rw [hm] at hf
    obtain ⟨gg, hgg, hp1, hda, hmax⟩ := gapScan_eq_some text e 40 pe.1 pe.2 hf
    refine ⟨s2, kw, e, gg, pe.2, hmem, hm, hgg, hda, ?_, hmax,
      fun q hq => hmin q (Nat.zero_le q) hq⟩
    rw [← hd, hp1]

/-- Completeness of the failure case: when the search returns nothing, no
keyword occurrence has a date starting within its 40-character window. -/
theorem searchKwDate_eq_none (kws : List (List (List Char))) (text : List Char)
    (hne : ∀ kw ∈ kws, kw ≠ []) (h : searchKwDate kws text = none) :
    ∀ p kw e, kw ∈ kws → kwMatchAt kw text p = some e →
      ∀ g, g ≤ 40 → dateAt text (e + g) = none := by
  unfold searchKwDate at h
  rw [Option.map_eq_none'] at h
  intro p kw e hmem hm g hg
  by_cases hp : p ≤ text.length
  · have hq := posScan_eq_none kws text (text.length + 1) 0 h p (Nat.zero_le p)
      (by omega)
    unfold kwTryAt at hq
    have hf := (List.findSome?_eq_none_iff.mp hq) kw hmem
    rw [hm] at hf
    exact gapScan_eq_none text e 40 hf g hg
  · have hnone := kwMatchAt_none_of_past_end kw text p (hne kw hmem) (by omega)
    rw [hnone] at hm
    exact Option.noConfusion hm

/-- C6 amended: for each date field, the heuristic scans the visible text
with the proximity regex; when no date token starts within the 40-character
window after any closing (resp. start) keyword occurrence, the field falls
back to the `"Non spécifiée"` sentinel; when the search succeeds, the field
is the matched token — the date starting at the GREATEST viable offset
within the window of the leftmost viable keyword occurrence (the greedy
dot-all gap prefers the largest gap, so with several date tokens in one
window the LAST-starting one is chosen, not the first as the claim put it).
Matching is case-insensitive (text folded by `lowerChar`) and spans line
breaks (the gap accepts any character). -/
theorem c6_close_date_window (text : List Char) :
    ((∀ d, searchKwDate kwClotureAlts text = some d →
        ∃ p kw e gg e2, kw ∈ kwClotureAlts ∧ kwMatchAt kw text p = some e ∧
          gg ≤ 40 ∧ dateAt text (e + gg) = some e2 ∧
          d = subSpan text (e + gg) e2 ∧
          (∀ g2, gg < g2 → g2 ≤ 40 → dateAt text (e + g2) = none) ∧
          (∀ q, q < p → kwTryAt kwClotureAlts text q = none)) ∧
      (searchKwDate kwClotureAlts text = none →
        ∀ p kw e, kw ∈ kwClotureAlts → kwMatchAt kw text p = some e →
          ∀ g, g ≤ 40 → dateAt text (e + g) = none)) ∧
      ((∀ d, searchKwDate kwDebutAlts text = some d →
        ∃ p kw e gg e2, kw ∈ kwDebutAlts ∧ kwMatchAt kw text p = some e ∧
          gg ≤ 40 ∧ dateAt text (e + gg) = some e2 ∧
          d = subSpan text (e + gg) e2 ∧
          (∀ g2, gg < g2 → g2 ≤ 40 → dateAt text (e + g2) = none) ∧
          (∀ q, q < p → kwTryAt kwDebutAlts text q = none)) ∧
      (searchKwDate kwDebutAlts text = none →
        ∀ p kw e, kw ∈ kwDebutAlts → kwMatchAt kw text p = some e →
          ∀ g, g ≤ 40 → dateAt text (e + g) = none)) ∧
      (∀ soup url r, extraire_info_heuristique soup url = some r →
        dictGet r "date_cloture" = some (Json.str (pyOrDefault
          ((searchKwDate kwClotureAlts soup.fullText).map String.mk)
          "Non spécifiée")) ∧
        dictGet r "date_debut" = some (Json.str (pyOrDefault
          ((searchKwDate kwDebutAlts soup.fullText).map String.mk)
          "Non spécifiée"))) := by
  refine ⟨⟨?_, ?_⟩, ⟨?_, ?_⟩, ?_⟩
  · exact fun d h => searchKwDate_eq_some kwClotureAlts text d h
  · exact fun h => searchKwDate_eq_none kwClotureAlts text (by decide) h
  · exact fun d h => searchKwDate_eq_some kwDebutAlts text d h
  · exact fun h => searchKwDate_eq_none kwDebutAlts text (by decide) h
  · intro soup url r h
    simp only [extraire_info_heuristique, Option.some.injEq] at h
    subst h
    constructor <;> simp [dictGet]

/-- A page whose visible text holds one closing keyword followed by two date
tokens, both starting within the 40-character window. -/
def c6soup : Soup :=
  { metaContent := fun _ _ => none
    titleString := none
    selectText := fun _ => none
    fullText := "cloture 01/01/2020 et 02/02/2021".data }

/-- Counterexample for C6 as stated: on the demo text the FIRST date token
after the keyword is `01/01/2020` (it starts one character after the
keyword, well within the window, as the conjuncts about `kwMatchAt` and
`dateAt` certify), yet the extracted `date_cloture` is `02/02/2021` — the
greedy gap selects the last-starting token in the window, not the first. -/
theorem c6_counterexample :
    (∃ r, extraire_info_heuristique c6soup "u" = some r ∧
        dictGet r "date_cloture" = some (Json.str "02/02/2021")) ∧
      kwMatchAt [['c'], ['l'], ['ô', 'o'], ['t'], ['u'], ['r'], ['e']]
        c6soup.fullText 0 = some 7 ∧
      dateAt c6soup.fullText 8 = some 18 ∧
      subSpan c6soup.fullText 8 18 = "01/01/2020".data ∧
      searchKwDate kwClotureAlts c6soup.fullText = some "02/02/2021".data ∧
      "02/02/2021" ≠ "01/01/2020" := by
  refine ⟨⟨_, rfl, rfl⟩, rfl, rfl, rfl, rfl, by decide⟩

/-- Witness for C6 amended at a concrete input: the search over a text with
a keyword but no date returns nothing, and the theorem then certifies that
no offset in the window holds a date — evaluated here at offset zero. -/
theorem c6_close_date_window_witness :
    dateAt "deadline rien".data (8 + 0) = none :=
  ((c6_close_date_window "deadline rien".data).1.2 (by rfl) 0
    [['d'], ['e'], ['a'], ['d'], ['l'], ['i'], ['n'], ['e']] 8
    (by decide) (by rfl) 0 (by decide))

end ScrapingAP
